import Mathlib

/-
Verification development for the RSS-to-short-video pipeline.

The Python modules `app/run.py`, `app/state.py`, `app/script_llm.py`,
`app/settings.py` and `app/utils.py` are shallowly embedded below.

Modelling conventions:
* Timestamps are modelled as UTC epoch seconds (`Int`).  Timezone-aware
  Python datetimes compare and subtract exactly like their epoch-second
  values, and `iso_utc` truncates to whole seconds, so `Int` is exact
  for everything the code does with time.
* Standard-library collaborators (`email.utils.parsedate_to_datetime`,
  `datetime.fromisoformat`, `hashlib.sha256`, `unicodedata` ASCII
  folding) are passed in as function parameters: the repository calls
  them but does not define them.  Every repository-side transformation
  around them (defaulting, stripping, slicing, formatting) is embedded.
* Python `dict`s (insertion ordered) are modelled as association lists
  with in-place update (`dictInsert`).
* `difflib.SequenceMatcher` (used via `.ratio()`) is embedded in full,
  including the autojunk heuristic, with `Nat` fuel standing in for the
  recursion of `get_matching_blocks`; the supplied fuel is large enough
  for every reachable call, see `matchSumFuel_le`.
* External-service calls made by the orchestrator are parameters of
  type `... → Except String ...`; an `Except.error` models a raised
  exception.
-/

/-- Python dict update `m[k] = v`: replaces the value in place if the key
is present (keeping its position), otherwise appends a new binding. -/
def dictInsert (m : List (String × String)) (k v : String) :
    List (String × String) :=
  if m.any (fun p => p.1 = k) then
    m.map (fun p => if p.1 = k then (k, v) else p)
  else
    m ++ [(k, v)]

/-- Python's `str` whitespace class (the characters `str.split`,
`str.strip` and the regex class `\s` treat as whitespace, ASCII part). -/
def isPyWs (c : Char) : Bool :=
  c = ' ' || c = '\t' || c = '\n' || c = '\r' || c = '\x0b' || c = '\x0c'

/-- List form of Python `str.strip()`: drop whitespace from both ends. -/
def pyStripList (l : List Char) : List Char :=
  ((l.dropWhile isPyWs).reverse.dropWhile isPyWs).reverse

/-- Python `str.strip()`. -/
def pyStrip (s : String) : String :=
  ⟨pyStripList s.data⟩

/-- Helper for Python `str.split()`: split on whitespace runs, dropping
empty pieces; `acc` is the current token accumulated in reverse. -/
def splitWsAux : List Char → List Char → List (List Char)
  | [], [] => []
  | [], acc => [acc.reverse]
  | c :: cs, acc =>
    if isPyWs c then
      if acc = [] then splitWsAux cs []
      else acc.reverse :: splitWsAux cs []
    else splitWsAux cs (c :: acc)

/-- Python `str.split()` with no argument. -/
def pySplit (s : String) : List String :=
  (splitWsAux s.data []).map (fun l => ⟨l⟩)

/-- Helper for the regex substitution `re.sub(r"\s+", " ", text)`:
collapse every whitespace run into a single space.  The flag records
whether the previous character was whitespace. -/
def collapseWsAux : Bool → List Char → List Char
  | _, [] => []
  | prev, c :: cs =>
    if isPyWs c then
      if prev then collapseWsAux true cs else ' ' :: collapseWsAux true cs
    else c :: collapseWsAux false cs

/-- Helper for the regex substitution `re.sub(r"<[^>]+>", " ", text)`:
a `<` with at least one non-`>` character before the next `>` opens a
tag which is replaced by one space; fuel makes the recursion structural
(fuel `l.length` always suffices as each step consumes a character). -/
def stripTagsFuel : Nat → List Char → List Char
  | 0, l => l
  | _ + 1, [] => []
  | fuel + 1, c :: cs =>
    if c = '<' then
      match cs.span (fun d => d ≠ '>') with
      | (pre, post) =>
        match post with
        | '>' :: post' =>
          if pre = [] then c :: stripTagsFuel fuel cs
          else ' ' :: stripTagsFuel fuel post'
        | _ => c :: stripTagsFuel fuel cs
    else c :: stripTagsFuel fuel cs

/-- Regex substitution `re.sub(r"<[^>]+>", " ", text)` on a char list. -/
def stripTagsList (l : List Char) : List Char :=
  stripTagsFuel l.length l

/-- Python `str.lower()`.  (`Char.toLower` lower-cases ASCII letters;
non-ASCII characters are erased by the later `[^a-z0-9\s]`
substitution either way, so the composite normalisation agrees.) -/
def pyLower (s : String) : String :=
  ⟨s.data.map Char.toLower⟩

/-- Membership in the regex class `[a-z0-9]`. -/
def isLowerAlnum (c : Char) : Bool :=
  ('a' ≤ c && c ≤ 'z') || ('0' ≤ c && c ≤ '9')

/-- Embeds `app.run._normalize_story_text`: lower-case, strip markup
tags, replace every character outside `[a-z0-9\s]` by a space, collapse
whitespace runs and strip the ends. -/
def _normalize_story_text (text : String) : String :=
  let lowered := pyLower text
  let lowered : String := ⟨stripTagsList lowered.data⟩
  let lowered : String :=
    ⟨lowered.data.map (fun c => if isLowerAlnum c || isPyWs c then c else ' ')⟩
  pyStrip ⟨collapseWsAux false lowered.data⟩

/-- Embeds `app.models.RssItem` (the dataclass). -/
structure RssItem where
  feed_name : String
  feed_url : String
  item_id : String
  title : String
  summary : String
  link : String
  published : String
  image_urls : List String
deriving DecidableEq, Repr

/-- Embeds `app.run._story_text`: normalised `title + " " + summary`. -/
def _story_text (item : RssItem) : String :=
  _normalize_story_text (item.title ++ " " ++ item.summary)

/-- Embeds `app.run._parse_rss_datetime_utc`.  The standard-library
parser `email.utils.parsedate_to_datetime` (including its exception
path and UTC coercion) is the parameter `parsedate`; the repository
wrapper strips the input and maps empty input to `None`. -/
def _parse_rss_datetime_utc (parsedate : String → Option Int)
    (value : String) : Option Int :=
  let raw := pyStrip value
  if raw = "" then none else parsedate raw

/-- Sort key used by all three item sorts in `app/run.py`: the parsed
publish time, with unparseable timestamps sorting as epoch zero. -/
def itemKey (parsedate : String → Option Int) (item : RssItem) : Int :=
  (_parse_rss_datetime_utc parsedate item.published).getD 0

/-- Embeds `app.run._sort_items_oldest_first` (`sorted` is a stable
ascending sort, as is `List.mergeSort`). -/
def _sort_items_oldest_first (parsedate : String → Option Int)
    (items : List RssItem) : List RssItem :=
  items.mergeSort (fun a b => decide (itemKey parsedate a ≤ itemKey parsedate b))

/-- Embeds `app.run._sort_items_newest_first` (stable descending sort:
CPython's `reverse=True` keeps the original order of equal keys, which
is exactly a stable sort by the flipped key comparison). -/
def _sort_items_newest_first (parsedate : String → Option Int)
    (items : List RssItem) : List RssItem :=
  items.mergeSort (fun a b => decide (itemKey parsedate b ≤ itemKey parsedate a))

/-- Embeds `app.run._select_recent_items`: keep everything when the cap
is non-positive, otherwise the top `max_recent` of the stable
descending sort by publish time. -/
def _select_recent_items (parsedate : String → Option Int)
    (items : List RssItem) (max_recent : Int) : List RssItem :=
  if max_recent ≤ 0 then items
  else (items.mergeSort
      (fun a b => decide (itemKey parsedate b ≤ itemKey parsedate a))).take
      max_recent.toNat

/-- Count of a character in a list, for the autojunk popularity test. -/
def seqCount (l : List Char) (c : Char) : Nat :=
  (l.filter (fun d => d = c)).length

/-- Autojunk "popular" test of `difflib.SequenceMatcher.__chain_b`:
with at least 200 elements in `b`, an element occurring in more than
one percent of positions (`len(idxs) > n // 100 + 1`) is purged. -/
def bPopular (b : List Char) (c : Char) : Bool :=
  decide (200 ≤ b.length) && decide (b.length / 100 + 1 < seqCount b c)

/-- The `b2j` index of `SequenceMatcher`: ascending positions of each
element of `b`, with autojunk-popular elements purged. -/
def b2j (b : List Char) (c : Char) : List Nat :=
  if bPopular b c then []
  else (List.range b.length).filter (fun j => b.getD j ' ' = c)

/-- Membership in the `bjunk` set of `SequenceMatcher`.  The repository
always constructs `SequenceMatcher(None, ...)`, so `isjunk` is `None`
and the junk set is empty. -/
def bIsJunk (_c : Char) : Bool := false

/-- State of `find_longest_match`: current best `(besti, bestj, bestsize)`. -/
structure FlmBest where
  besti : Nat
  bestj : Nat
  bestsize : Nat
deriving DecidableEq, Repr

/-- Inner loop of `find_longest_match` phase one: for each candidate
position `j` of `a[i]` in `b`, the new run length is one more than the
old run length ending at `j - 1` (`j2len.get(j-1, 0) + 1`), and the
best triple is replaced whenever a longer run appears. -/
def flmInner (j2lenOld : Nat → Nat) (i : Nat) (js : List Nat)
    (best : FlmBest) : (Nat → Nat) × FlmBest :=
  js.foldl
    (fun st j =>
      let k := (if j = 0 then 0 else j2lenOld (j - 1)) + 1
      let newDict := fun j' => if j' = j then k else st.1 j'
      (newDict,
        if st.2.bestsize < k then ⟨i + 1 - k, j + 1 - k, k⟩ else st.2))
    ((fun _ => 0), best)

/-- Phase one of `find_longest_match`: iterate `i` over `[alo, ahi)`
carrying the `j2len` dictionary (fresh per row) and the best triple;
the `continue`/`break` window test on ascending `j` lists is the filter
`blo ≤ j < bhi`. -/
def flmPhase1 (a b : List Char) (alo ahi blo bhi : Nat) : FlmBest :=
  ((List.range' alo (ahi - alo)).foldl
    (fun st i =>
      let js := (b2j b (a.getD i ' ')).filter
        (fun j => decide (blo ≤ j) && decide (j < bhi))
      flmInner st.1 i js st.2)
    ((fun _ => 0), (⟨alo, blo, 0⟩ : FlmBest))).2

/-- Backward extension loops of `find_longest_match` (`junkWanted` is
`false` for the non-junk pass and `true` for the junk pass); the fuel
makes the loop structural, and fuel `besti` always suffices because
each step decrements `besti` while `alo < besti`. -/
def flmExtendBack (junkWanted : Bool) (a b : List Char) (alo blo : Nat) :
    Nat → FlmBest → FlmBest
  | 0, st => st
  | fuel + 1, st =>
    if alo < st.besti ∧ blo < st.bestj ∧
        bIsJunk (b.getD (st.bestj - 1) ' ') = junkWanted ∧
        a.getD (st.besti - 1) ' ' = b.getD (st.bestj - 1) ' ' then
      flmExtendBack junkWanted a b alo blo fuel
        ⟨st.besti - 1, st.bestj - 1, st.bestsize + 1⟩
    else st

/-- Forward extension loops of `find_longest_match`; fuel `ahi` always
suffices because each step increments `besti + bestsize` while it is
below `ahi`. -/
def flmExtendFwd (junkWanted : Bool) (a b : List Char) (ahi bhi : Nat) :
    Nat → FlmBest → FlmBest
  | 0, st => st
  | fuel + 1, st =>
    if st.besti + st.bestsize < ahi ∧ st.bestj + st.bestsize < bhi ∧
        bIsJunk (b.getD (st.bestj + st.bestsize) ' ') = junkWanted ∧
        a.getD (st.besti + st.bestsize) ' ' =
          b.getD (st.bestj + st.bestsize) ' ' then
      flmExtendFwd junkWanted a b ahi bhi fuel
        ⟨st.besti, st.bestj, st.bestsize + 1⟩
    else st

/-- Embeds `difflib.SequenceMatcher.find_longest_match` on the window
`a[alo:ahi]`, `b[blo:bhi]`: phase one over the `b2j` index, then the
four extension loops (non-junk backward/forward, junk backward/forward). -/
def findLongestMatch (a b : List Char) (alo ahi blo bhi : Nat) : FlmBest :=
  let st := flmPhase1 a b alo ahi blo bhi
  let st := flmExtendBack false a b alo blo st.besti st
  let st := flmExtendFwd false a b ahi bhi ahi st
  let st := flmExtendBack true a b alo blo st.besti st
  let st := flmExtendFwd true a b ahi bhi ahi st
  st

/-- Total size of the matching blocks of `get_matching_blocks` on a
window: the longest match plus the recursive sums of the windows to its
left and right (exactly the queue recursion of `difflib`, which only
recurses when the sub-window is non-empty on both sides).  Fuel
`ahi - alo` suffices: every recursive call shrinks the `a`-window, see
`matchSumFuel_le`. -/
def matchSumFuel (a b : List Char) : Nat → Nat → Nat → Nat → Nat → Nat
  | 0, _, _, _, _ => 0
  | fuel + 1, alo, ahi, blo, bhi =>
    let m := findLongestMatch a b alo ahi blo bhi
    if m.bestsize = 0 then 0
    else
      m.bestsize
        + (if alo < m.besti ∧ blo < m.bestj then
            matchSumFuel a b fuel alo m.besti blo m.bestj else 0)
        + (if m.besti + m.bestsize < ahi ∧ m.bestj + m.bestsize < bhi then
            matchSumFuel a b fuel (m.besti + m.bestsize) ahi
              (m.bestj + m.bestsize) bhi else 0)

/-- Embeds `SequenceMatcher(None, sa, sb).ratio()`:
`2 * matches / (len(a) + len(b))`, and `1.0` when both are empty. -/
def seqRatio (sa sb : String) : ℚ :=
  let a := sa.data
  let b := sb.data
  let matchTotal := matchSumFuel a b a.length 0 a.length 0 b.length
  if a.length + b.length = 0 then 1
  else 2 * (matchTotal : ℚ) / ((a.length : ℚ) + (b.length : ℚ))

/-- Python `set(text.split())`. -/
def tokenSet (s : String) : Finset String :=
  (pySplit s).toFinset

/-- Embeds `app.run._story_similarity`: `0.0` when either normalised
text is empty, otherwise the maximum of the character-sequence ratio
and the token-set Jaccard similarity (`0.0` Jaccard when either token
set is empty). -/
def _story_similarity (a b : RssItem) : ℚ :=
  let a_text := _story_text a
  let b_text := _story_text b
  if a_text = "" ∨ b_text = "" then 0
  else
    let char_ratio := seqRatio a_text b_text
    let a_tokens := tokenSet a_text
    let b_tokens := tokenSet b_text
    let token_jaccard : ℚ :=
      if a_tokens = ∅ ∨ b_tokens = ∅ then 0
      else ((a_tokens ∩ b_tokens).card : ℚ) /
        ((a_tokens ∪ b_tokens).card : ℚ)
    max char_ratio token_jaccard

/-- Embeds `app.run._select_first_chronological_unique_stories`:
process items oldest-published-first; an item whose similarity against
some already-kept item reaches the threshold is recorded in the skipped
map under that keeper's id (Python truthiness: a keeper with an empty
`item_id` is treated as no match), otherwise it is appended to `kept`. -/
def _select_first_chronological_unique_stories
    (parsedate : String → Option Int) (items : List RssItem)
    (similarity_threshold : ℚ := 84/100) :
    List RssItem × List (String × String) :=
  (_sort_items_oldest_first parsedate items).foldl
    (fun st item =>
      let matched_with : Option String :=
        (st.1.find? (fun existing =>
          decide (similarity_threshold ≤ _story_similarity item existing))).map
          (fun existing => existing.item_id)
      match matched_with with
      | some mid =>
        if mid = "" then (st.1 ++ [item], st.2)
        else (st.1, dictInsert st.2 item.item_id mid)
      | none => (st.1 ++ [item], st.2))
    ([], [])

/-- Helper for the regex substitution `re.sub(r"[^a-z0-9]+", "-", s)`:
collapse every maximal run of non-alphanumeric characters into a single
hyphen; the flag records whether the previous character was in a run. -/
def collapseNonAlnumAux : Bool → List Char → List Char
  | _, [] => []
  | prev, c :: cs =>
    if isLowerAlnum c then c :: collapseNonAlnumAux false cs
    else if prev then collapseNonAlnumAux true cs
    else '-' :: collapseNonAlnumAux true cs

/-- List form of Python `str.strip("-")`. -/
def stripDashList (l : List Char) : List Char :=
  ((l.dropWhile (fun c => c = '-')).reverse.dropWhile (fun c => c = '-')).reverse

/-- Embeds `app.utils.slugify`.  The Unicode NFKD normalisation plus
ASCII encode/ignore round-trip of `unicodedata` is the parameter
`asciiFold`; the repository-side steps (lower-casing, collapsing
non-alphanumeric runs to hyphens, stripping hyphens, the `"clip"`
fallback, the length cap, the final strip) are embedded. -/
def slugify (asciiFold : String → String) (text : String)
    (max_length : Nat := 80) : String :=
  let ascii_text := asciiFold text
  let lowered := pyLower ascii_text
  let cleaned : String := ⟨stripDashList (collapseNonAlnumAux false lowered.data)⟩
  let cleaned := if cleaned = "" then "clip" else cleaned
  ⟨stripDashList (cleaned.data.take max_length)⟩

/-- Days-since-epoch to proleptic Gregorian civil date
(year, month, day); this models the calendar arithmetic inside
`datetime`'s `%Y/%m/%d` formatting. -/
def civilFromDays (z0 : Int) : Int × Nat × Nat :=
  let z := z0 + 719468
  let era := Int.fdiv z 146097
  let doe := (z - era * 146097).toNat
  let yoe := (doe - doe / 1460 + doe / 36524 - doe / 146096) / 365
  let doy := doe - (365 * yoe + yoe / 4 - yoe / 100)
  let mp := (5 * doy + 2) / 153
  let d := doy - (153 * mp + 2) / 5 + 1
  let m := if mp < 10 then mp + 3 else mp - 9
  ((yoe : Int) + era * 400 + (if m ≤ 2 then 1 else 0), m, d)

/-- Zero-padded two-digit field (`%m`, `%d`). -/
def pad2 (n : Nat) : String :=
  if n < 10 then "0" ++ toString n else toString n

/-- Zero-padded four-digit year (`%Y`). -/
def pad4 (n : Int) : String :=
  if n < 10 then "000" ++ toString n
  else if n < 100 then "00" ++ toString n
  else if n < 1000 then "0" ++ toString n
  else toString n

/-- Models `f"{key_date:%Y/%m/%d}"` on a UTC datetime given as epoch
seconds (the day number is the floor division by 86400). -/
def strftimeYmd (t : Int) : String :=
  let ymd := civilFromDays (Int.fdiv t 86400)
  pad4 ymd.1 ++ "/" ++ pad2 ymd.2.1 ++ "/" ++ pad2 ymd.2.2

/-- Python string slice `s[:n]` (list-based, as `String.take` walks
byte positions). -/
def strTake (s : String) (n : Nat) : String :=
  ⟨s.data.take n⟩

/-- Embeds `app.run._build_video_key`: date path from the parsed publish
date (epoch zero if unparseable), slug capped at 70, first 10 hex chars
of the SHA-256 of the item id (`hashlib` is the parameter `sha256hex`). -/
def _build_video_key (parsedate : String → Option Int)
    (sha256hex asciiFold : String → String)
    (item_title item_id published : String) : String :=
  let key_date := (_parse_rss_datetime_utc parsedate published).getD 0
  let slug := slugify asciiFold item_title 70
  let suffix := strTake (sha256hex item_id) 10
  "videos/" ++ strftimeYmd key_date ++ "/" ++ slug ++ "-" ++ suffix ++ ".mp4"

/-- Decimal value of a digit run, `none` if empty or any non-digit;
`acc` threads the value parsed so far. -/
def digitsValAux : Option Nat → List Char → Option Nat
  | acc, [] => acc
  | acc, c :: cs =>
    if '0' ≤ c ∧ c ≤ '9' then
      digitsValAux (some ((acc.getD 0) * 10 + (c.toNat - 48))) cs
    else none

/-- Python `int(s)` on strings: strip whitespace, optional sign, then a
non-empty digit run; `ValueError` is modelled by `none`. -/
def pyInt (s : String) : Option Int :=
  match pyStripList s.data with
  | '-' :: ds => (digitsValAux none ds).map (fun n => -(n : Int))
  | '+' :: ds => (digitsValAux none ds).map (fun n => (n : Int))
  | ds => (digitsValAux none ds).map (fun n => (n : Int))

/-- Embeds `app.settings._as_int`: `None` or blank input gives the
default; otherwise Python `int()`. -/
def _as_int (value : Option String) (default : Int) : Option Int :=
  match value with
  | none => some default
  | some s => if pyStrip s = "" then some default else pyInt s

/-- The `max_recent_per_feed` field computed by
`app.settings.load_settings` from the `MAX_RECENT_PER_FEED` environment
variable: `_as_int(os.getenv("MAX_RECENT_PER_FEED"), 5)`. -/
def max_recent_per_feed_setting (env : Option String) : Option Int :=
  _as_int env 5

/-- Embeds `app.state.is_processed`: ledger membership test. -/
def is_processed (processed : List (String × String)) (item_id : String) : Bool :=
  processed.any (fun p => p.1 = item_id)

/-- Embeds `app.state.mark_processed`: upsert of
`timestamp or iso_utc()` (Python truthiness: `None` or the empty string
fall back to the current time `nowIso`). -/
def mark_processed (processed : List (String × String)) (item_id : String)
    (timestamp : Option String) (nowIso : String) : List (String × String) :=
  dictInsert processed item_id
    (match timestamp with
     | some t => if t = "" then nowIso else t
     | none => nowIso)

/-- Embeds `app.state.prune_state_by_retention`: a no-op for a
non-positive retention, otherwise entries whose timestamp fails to
parse (`parseIso`, modelling `app.utils.parse_iso_utc`, `none` for the
exception path) or parses strictly before `now - retention_days` days
are removed; returns the new ledger and the number of removals.
(`timedelta(days=n)` on aware UTC datetimes is exactly `n * 86400`
seconds.) -/
def prune_state_by_retention (parseIso : String → Option Int)
    (processed : List (String × String)) (retention_days : Int) (now : Int) :
    List (String × String) × Nat :=
  if retention_days ≤ 0 then (processed, 0)
  else
    let cutoff := now - 86400 * retention_days
    let isExpired := fun (p : String × String) =>
      match parseIso p.2 with
      | none => true
      | some t => decide (t < cutoff)
    (processed.filter (fun p => !(isExpired p)), (processed.filter isExpired).length)

/-- Failure classes raised by the OpenAI client, as discriminated by
`app.script_llm._is_retryable`. -/
inductive LlmErr where
  | apiTimeout
  | rateLimit
  | apiStatus (status_code : Int)
  | other (msg : String)
deriving DecidableEq, Repr

/-- Embeds `app.script_llm._is_retryable`: timeouts and rate limits are
retryable, API status failures are retryable iff 5xx or 429, anything
else is not. -/
def _is_retryable : LlmErr → Bool
  | .apiTimeout => true
  | .rateLimit => true
  | .apiStatus code => decide (500 ≤ code) || decide (code = 429)
  | .other _ => false

/-- Embeds `app.script_llm._is_fallback_worthy`. -/
def _is_fallback_worthy (e : LlmErr) : Bool :=
  _is_retryable e

/-- The retry loop of `_run_model_with_retry`, one attempt per step:
`attempt` is the 1-based attempt number and `remaining` the number of
attempts still allowed after this one (`max_retries - attempt`).  The
accompanying list collects the backoff sleeps (`2 ** (attempt - 1)`)
actually performed, in order. -/
def retryLoop {Res : Type} (call : Nat → Except LlmErr Res) :
    Nat → Nat → Except LlmErr Res × List Nat
  | attempt, remaining =>
    match call attempt with
    | .ok r => (.ok r, [])
    | .error e =>
      match remaining with
      | 0 => (.error e, [])
      | rem + 1 =>
        if _is_retryable e then
          let rest := retryLoop call (attempt + 1) rem
          (rest.1, 2 ^ (attempt - 1) :: rest.2)
        else (.error e, [])

/-- Embeds `app.script_llm.ScriptGenerator._run_model_with_retry` for a
given model: the attempts are the calls `call 1, call 2, ...`; the
result surfaces either the success, the last failure
(`raise last_error`), or `Except.error none` for the
`RuntimeError("... failed without explicit error")` path reached only
when the loop body never ran (`max_retries = 0`). -/
def _run_model_with_retry {Res : Type} (max_retries : Nat)
    (call : Nat → Except LlmErr Res) :
    Except (Option LlmErr) Res × List Nat :=
  if max_retries = 0 then (.error none, [])
  else
    let r := retryLoop call 1 (max_retries - 1)
    (r.1.mapError some, r.2)

/-- Embeds `app.script_llm.ScriptGenerator.create_script`: run the full
retry policy on the primary model; on failure, re-raise unless the
failure is fallback-worthy, in which case run the full retry policy on
the fallback model with the same attempt budget.  The boolean records
whether the fallback tier was invoked. -/
def create_script {Res : Type} (max_retries : Nat)
    (primary_call fallback_call : Nat → Except LlmErr Res) :
    Except (Option LlmErr) Res × Bool :=
  match (_run_model_with_retry max_retries primary_call).1 with
  | .ok r => (.ok r, false)
  | .error none => (.error none, false)
  | .error (some e) =>
    if _is_fallback_worthy e then
      ((_run_model_with_retry max_retries fallback_call).1, true)
    else (.error (some e), false)

/-- The stats counters of `run_pipeline` that the embedded core
touches (`feeds`, `retention_deleted_videos` and `emails_sent` belong
to collaborator-only paths and are omitted). -/
structure RunStats where
  entries_seen : Nat
  skipped_same_story : Nat
  skipped_no_image : Nat
  skipped_duplicate : Nat
  skipped_no_downloadable_image : Nat
  processed : Nat
  errors : Nat
  retention_pruned_state : Nat
deriving DecidableEq, Repr

/-- All counters zero, as initialised at the top of `run_pipeline`. -/
def RunStats.init : RunStats :=
  ⟨0, 0, 0, 0, 0, 0, 0, 0⟩

/-- Outcome of the per-item `try:` block of `run_pipeline` when no
exception is raised: either every image download failed
(`skipped_no_downloadable_image`) or the full produce path ran. -/
inductive BodyOutcome where
  | noDownloadableImage
  | produced
deriving DecidableEq, Repr

/-- The orchestrator state threaded through the item loop of
`run_pipeline`: counters, produced item ids, the `--max-items` budget
counter, the in-run seen-id set, and the ledger (`state["processed"]`). -/
structure PipeState where
  stats : RunStats
  created : List String
  processed_count : Nat
  seen_item_ids : List String
  ledger : List (String × String)
deriving DecidableEq, Repr

/-- Embeds the per-item loop of `app.run.run_pipeline`
(lines 238-354): the `--max-items` early stop, the in-run duplicate
check, the no-image check, the ledger membership check, the key build,
the existing-object check (outside the `try:` block, so a raised
exception — `Except.error` from `object_exists` — propagates and ends
the loop), the dry-run short-circuit, and the `try:` body (`body`,
whose `Except.error` models any exception inside the block and is
caught at the item boundary). -/
def runItems (dry_run : Bool) (max_items : Int)
    (parsedate : String → Option Int) (sha256hex asciiFold : String → String)
    (object_exists : String → Except String Bool)
    (body : RssItem → Except String BodyOutcome)
    (nowIso : String) :
    List RssItem → PipeState → Except String PipeState
  | [], s => .ok s
  | item :: rest, s =>
    if max_items ≠ 0 ∧ max_items ≤ (s.processed_count : Int) then .ok s
    else if item.item_id ∈ s.seen_item_ids then
      runItems dry_run max_items parsedate sha256hex asciiFold object_exists
        body nowIso rest
        { s with stats :=
            { s.stats with skipped_duplicate := s.stats.skipped_duplicate + 1 } }
    else
      let s := { s with seen_item_ids := s.seen_item_ids ++ [item.item_id] }
      if item.image_urls = [] then
        runItems dry_run max_items parsedate sha256hex asciiFold object_exists
          body nowIso rest
          { s with stats :=
              { s.stats with skipped_no_image := s.stats.skipped_no_image + 1 } }
      else if is_processed s.ledger item.item_id then
        runItems dry_run max_items parsedate sha256hex asciiFold object_exists
          body nowIso rest
          { s with stats :=
              { s.stats with skipped_duplicate := s.stats.skipped_duplicate + 1 } }
      else
        let key := _build_video_key parsedate sha256hex asciiFold
          item.title item.item_id item.published
        if dry_run then
          runItems dry_run max_items parsedate sha256hex asciiFold
            object_exists body nowIso rest
            { s with processed_count := s.processed_count + 1 }
        else
          match object_exists key with
          | .error e => .error e
          | .ok true =>
            runItems dry_run max_items parsedate sha256hex asciiFold
              object_exists body nowIso rest
              { s with
                stats := { s.stats with
                  skipped_duplicate := s.stats.skipped_duplicate + 1 },
                ledger := mark_processed s.ledger item.item_id (some nowIso) nowIso }
          | .ok false =>
            match body item with
            | .error _ =>
              runItems dry_run max_items parsedate sha256hex asciiFold
                object_exists body nowIso rest
                { s with stats := { s.stats with errors := s.stats.errors + 1 } }
            | .ok .noDownloadableImage =>
              runItems dry_run max_items parsedate sha256hex asciiFold
                object_exists body nowIso rest
                { s with stats := { s.stats with
                    skipped_no_downloadable_image :=
                      s.stats.skipped_no_downloadable_image + 1 } }
            | .ok .produced =>
              runItems dry_run max_items parsedate sha256hex asciiFold
                object_exists body nowIso rest
                { s with
                  stats := { s.stats with processed := s.stats.processed + 1 },
                  created := s.created ++ [item.item_id],
                  processed_count := s.processed_count + 1,
                  ledger := mark_processed s.ledger item.item_id (some nowIso) nowIso }

/-- The settings fields `run_pipeline` consumes for setup and the loop. -/
structure SettingsM where
  r2_access_key_id : Option String
  r2_secret_access_key : Option String
  openai_api_key : Option String
  elevenlabs_api_key : Option String
  elevenlabs_voice_id : Option String
  smtp_user : Option String
  smtp_pass : Option String
  email_to : Option String
  max_recent_per_feed : Int
  r2_retention_days : Int
deriving DecidableEq, Repr

/-- Embeds `app.run._require`: a `None` or empty value raises
`ValueError` (Python truthiness `if not value`). -/
def _require (value : Option String) (name : String) : Except String String :=
  match value with
  | none => .error ("Missing required environment variable: " ++ name)
  | some s =>
    if s = "" then .error ("Missing required environment variable: " ++ name)
    else .ok s

/-- Result of `run_pipeline`: the final orchestrator state and the
ledger document written back by `save_state` (`none` in dry-run, where
no save happens). -/
structure RunOutcome where
  final : PipeState
  saved_ledger : Option (List (String × String))
deriving DecidableEq, Repr

/-- Embeds `app.run.run_pipeline` around the item loop: credential
checks (only outside dry-run, in source order), the per-feed fetch
phase with its per-feed exception handling and per-source recency cap,
the global story dedup, the newest-first ordering of the worklist, the
item loop, and the end-of-run ledger pruning and save (skipped in
dry-run, which also starts from a fresh empty ledger instead of the
loaded one).  `feeds` gives each feed fetch's outcome; `loaded_ledger`
is the document `load_state` returns; `now` is the prune reference
time and `nowIso` its ISO form used for `mark_processed`. -/
def run_pipeline (settings : SettingsM) (dry_run : Bool) (max_items : Int)
    (parsedate parseIso : String → Option Int)
    (sha256hex asciiFold : String → String)
    (object_exists : String → Except String Bool)
    (body : RssItem → Except String BodyOutcome)
    (loaded_ledger : List (String × String))
    (feeds : List (Except String (List RssItem)))
    (nowIso : String) (now : Int) : Except String RunOutcome := do
  let ledger0 ←
    if dry_run then pure []
    else do
      let _ ← _require settings.r2_access_key_id "R2_ACCESS_KEY_ID"
      let _ ← _require settings.r2_secret_access_key "R2_SECRET_ACCESS_KEY"
      let _ ← _require settings.openai_api_key "OPENAI_API_KEY"
      let _ ← _require settings.elevenlabs_api_key "ELEVENLABS_API_KEY"
      let _ ← _require settings.elevenlabs_voice_id "ELEVENLABS_VOICE_ID"
      let _ ← _require settings.smtp_user "SMTP_USER"
      let _ ← _require settings.smtp_pass "SMTP_PASS"
      let _ ← _require settings.email_to "EMAIL_TO"
      pure loaded_ledger
  let feedPhase := feeds.foldl
    (fun (st : List RssItem × Nat) f =>
      match f with
      | .ok its =>
        (st.1 ++ _select_recent_items parsedate its settings.max_recent_per_feed,
         st.2)
      | .error _ => (st.1, st.2 + 1))
    ([], 0)
  let feed_candidates := feedPhase.1
  let dedup := _select_first_chronological_unique_stories parsedate feed_candidates
  let all_items := _sort_items_newest_first parsedate dedup.1
  let s0 : PipeState :=
    { stats := { RunStats.init with
        entries_seen := feed_candidates.length,
        skipped_same_story := dedup.2.length,
        errors := feedPhase.2 },
      created := [], processed_count := 0, seen_item_ids := [],
      ledger := ledger0 }
  let sEnd ← runItems dry_run max_items parsedate sha256hex asciiFold
    object_exists body nowIso all_items s0
  if dry_run then
    pure { final := sEnd, saved_ledger := none }
  else
    let pr := prune_state_by_retention parseIso sEnd.ledger
      settings.r2_retention_days now
    let sFin := { sEnd with
      stats := { sEnd.stats with retention_pruned_state := pr.2 },
      ledger := pr.1 }
    pure { final := sFin, saved_ledger := some pr.1 }

/-- Toy parser used by concrete witnesses: parses decimal integers and
fails on everything else (a legitimate instance of the stdlib parser
parameters, which return `None` exactly on unparseable input). -/
def parseDigits : String → Option Int :=
  fun s => (digitsValAux none s.data).map (fun n => (n : Int))

/-- Toy item used by concrete witnesses. -/
def toyItem (id title published : String) : RssItem :=
  { feed_name := "Feed", feed_url := "https://example.com/rss", item_id := id,
    title := title, summary := "", link := "https://example.com/item",
    published := published, image_urls := ["https://example.com/a.jpg"] }

/-- Toy stand-ins for the hash and ASCII-folding collaborators of the
key builder (the identity fold is exactly what `unicodedata` NFKD plus
ASCII encode/ignore does on plain-ASCII titles). -/
def toySha : String → String :=
  fun s => s ++ "0123456789abcdef"

/-- Identity ASCII folding, valid for plain-ASCII input. -/
def toyFold : String → String :=
  fun s => s

/-- The empty orchestrator state the item loop starts from. -/
def pipeInit : PipeState :=
  { stats := RunStats.init, created := [], processed_count := 0,
    seen_item_ids := [], ledger := [] }

/-- Settings with every required credential present except
`OPENAI_API_KEY`. -/
def toySettings : SettingsM :=
  { r2_access_key_id := some "k", r2_secret_access_key := some "k",
    openai_api_key := none, elevenlabs_api_key := some "k",
    elevenlabs_voice_id := some "k", smtp_user := some "k",
    smtp_pass := some "k", email_to := some "e",
    max_recent_per_feed := 5, r2_retention_days := 30 }

/-- The `a`-side bounds maintained by `find_longest_match`: the best
window starts at or after `alo` and ends at or before `ahi`. -/
def FlmInv (alo ahi : Nat) (st : FlmBest) : Prop :=
  alo ≤ st.besti ∧ st.besti + st.bestsize ≤ ahi

/-- Concrete items for the dedup scenario: `itemA` is the oldest report
of a story, `itemB` a newer near-duplicate (identical normalised text),
`itemC` a distinct story. -/
def itemA : RssItem := toyItem "A" "alphawin" "1"

/-- Newer near-duplicate of `itemA`. -/
def itemB : RssItem := toyItem "B" "alphawin" "2"

/-- A distinct story, newest of the three. -/
def itemC : RssItem := toyItem "C" "zzz" "3"

/-- Duplicate-story items with identical (unparseable) publish times. -/
def itemX : RssItem := toyItem "X" "alphawin" ""

/-- Same story and same (unparseable) publish time as `itemX`. -/
def itemY : RssItem := toyItem "Y" "alphawin" ""

/-- Generic foldl invariant preservation, used for loop invariants. -/
theorem foldl_inv {α β : Type} (f : α → β → α) (P : α → Prop) :
    ∀ (l : List β) (init : α), P init → (∀ a b, b ∈ l → P a → P (f a b)) →
      P (l.foldl f init) := by
  intro l
  induction l with
  | nil => intro init h _; exact h
  | cons x xs ih =>
    intro init h hstep
    exact ih (f init x) (hstep init x (List.mem_cons_self x xs) h)
      (fun a b hb ha => hstep a b (List.mem_cons_of_mem x hb) ha)

/-- Splitting a list by a predicate preserves total length. -/
theorem filter_not_length_add {α : Type} (p : α → Bool) (l : List α) :
    (l.filter (fun a => !(p a))).length + (l.filter p).length = l.length := by
  induction l with
  | nil => rfl
  | cons x xs ih =>
    by_cases h : p x
    · simp [List.filter, h, ← ih]; omega
    · simp [List.filter, h, ← ih]; omega

/-- C5: pruning with a non-positive retention is a no-op returning 0;
with a positive retention it keeps exactly the entries whose timestamp
parses to a time at least `now - retention_days` days (the retention
window), removing the strictly-older and the unparseable ones, and the
returned count is exactly the number of removed entries (kept entries
form a sublist, i.e. nothing is reordered or added). -/
theorem prune_state_retention_spec (parseIso : String → Option Int)
    (processed : List (String × String)) (retention_days : Int) (now : Int) :
    (retention_days ≤ 0 →
      prune_state_by_retention parseIso processed retention_days now
        = (processed, 0)) ∧
    (0 < retention_days →
      (∀ p : String × String,
        p ∈ (prune_state_by_retention parseIso processed retention_days now).1 ↔
          (p ∈ processed ∧
            ∃ t, parseIso p.2 = some t ∧ now - 86400 * retention_days ≤ t)) ∧
      (prune_state_by_retention parseIso processed retention_days now).1.length
          + (prune_state_by_retention parseIso processed retention_days now).2
          = processed.length ∧
      (prune_state_by_retention parseIso processed retention_days now).1.Sublist
        processed) := by
  constructor
  · intro h
    simp only [prune_state_by_retention, if_pos h]
  · intro h
    have hne : ¬ retention_days ≤ 0 := by omega
    refine ⟨?_, ?_, ?_⟩
    · intro p
      simp only [prune_state_by_retention, if_neg hne, List.mem_filter]
      constructor
      · rintro ⟨hp, hcond⟩
        refine ⟨hp, ?_⟩
        rcases hparse : parseIso p.2 with _ | t
        · simp [hparse] at hcond
        · refine ⟨t, rfl, ?_⟩
          simp [hparse] at hcond
          omega
      · rintro ⟨hp, t, hparse, ht⟩
        refine ⟨hp, ?_⟩
        simp [hparse]
        omega
    · simp only [prune_state_by_retention, if_neg hne]
      exact filter_not_length_add _ processed
    · simp only [prune_state_by_retention, if_neg hne]
      exact List.filter_sublist processed

/-- Witness for C5: with retention 1 day and `now` 86500 seconds after
the epoch, the entry stamped 100 (inside the window) is kept — via the
membership characterisation — while the run on the concrete ledger
shows the stale entry (stamp 0) and the corrupt entry (stamp "x")
removed with count 2. -/
theorem prune_state_retention_spec_witness :
    ("new", "100") ∈ (prune_state_by_retention parseDigits
      [("old", "0"), ("new", "100"), ("bad", "x")] 1 86500).1 ∧
    prune_state_by_retention parseDigits
      [("old", "0"), ("new", "100"), ("bad", "x")] 1 86500
      = ([("new", "100")], 2) := by
  constructor
  · exact (((prune_state_retention_spec parseDigits
      [("old", "0"), ("new", "100"), ("bad", "x")] 1 86500).2 (by norm_num)).1
      ("new", "100")).mpr ⟨by decide, 100, by decide, by decide⟩
  · decide

/-- Failing non-retryably surfaces the failure at once: no sleep, no
further attempt, whatever the remaining budget. -/
theorem retryLoop_nonretryable {Res : Type} (call : Nat → Except LlmErr Res)
    (attempt rem : Nat) (e : LlmErr) (hc : call attempt = .error e)
    (hnr : _is_retryable e = false) :
    retryLoop call attempt rem = (.error e, []) := by
  cases rem with
  | zero => simp [retryLoop, hc]
  | succ r => simp [retryLoop, hc, hnr]

/-- Loop lemma: after `k` retryable failures starting at `attempt`, a
success at attempt `attempt + k` is returned, with one backoff sleep
`2 ^ (i - 1)` for each failed attempt `i`, in order. -/
theorem retryLoop_succeeds {Res : Type} (call : Nat → Except LlmErr Res)
    (r : Res) :
    ∀ (k attempt rem : Nat), k ≤ rem →
      (∀ i, attempt ≤ i → i < attempt + k →
        ∃ e, call i = .error e ∧ _is_retryable e = true) →
      call (attempt + k) = .ok r →
      retryLoop call attempt rem
        = (.ok r, (List.range k).map (fun j => 2 ^ (attempt + j - 1))) := by
  intro k
  induction k with
  | zero =>
    intro attempt rem _ _ hok
    rcases rem with _ | rem' <;> simp_all [retryLoop]
  | succ k ih =>
    intro attempt rem hle hfail hok
    obtain ⟨e, he, hret⟩ := hfail attempt le_rfl (by omega)
    rcases rem with _ | rem'
    · omega
    · have hrest := ih (attempt + 1) rem' (by omega)
        (fun i h1 h2 => hfail i (by omega) (by omega)) (by rw [← hok]; ring_nf)
      simp only [retryLoop, he, hret, if_pos, hrest, Prod.mk.injEq]
      refine ⟨trivial, ?_⟩
      rw [List.range_succ_eq_map, List.map_cons, List.map_map]
      simp only [List.cons.injEq]
      refine ⟨by norm_num, ?_⟩
      apply List.map_congr_left
      intro j _
      simp only [Function.comp_apply]
      congr 1
      omega

/-- Loop lemma: when every attempt in the remaining budget fails with a
retryable failure, the loop surfaces the failure of the last attempt
after sleeping once per earlier attempt. -/
theorem retryLoop_exhausts {Res : Type} (call : Nat → Except LlmErr Res)
    (e : LlmErr) :
    ∀ (k attempt : Nat),
      (∀ i, attempt ≤ i → i < attempt + k →
        ∃ e', call i = .error e' ∧ _is_retryable e' = true) →
      call (attempt + k) = .error e →
      retryLoop call attempt k
        = (.error e, (List.range k).map (fun j => 2 ^ (attempt + j - 1))) := by
  intro k
  induction k with
  | zero =>
    intro attempt _ hlast
    simp_all [retryLoop]
  | succ k ih =>
    intro attempt hfail hlast
    obtain ⟨e', he', hret⟩ := hfail attempt le_rfl (by omega)
    have hrest := ih (attempt + 1)
      (fun i h1 h2 => hfail i (by omega) (by omega)) (by rw [← hlast]; ring_nf)
    simp only [retryLoop, he', hret, if_pos, hrest, Prod.mk.injEq]
    refine ⟨trivial, ?_⟩
    rw [List.range_succ_eq_map, List.map_cons, List.map_map]
    simp only [List.cons.injEq]
    refine ⟨by norm_num, ?_⟩
    apply List.map_congr_left
    intro j _
    simp only [Function.comp_apply]
    congr 1
    omega

/-- C3: for the retry policy with at least one attempt: a first-attempt
non-retryable failure is surfaced immediately with no sleep and no
further attempt; `k` retryable failures followed by a success within
the budget return the success after exactly the backoff sleeps
`2^0, ..., 2^(k-1)` in order (for `k = 2`, `max = 3`: sleeps `[1, 2]`);
and when all attempts fail retryably the last attempt's failure is
surfaced after the sleeps `2^0, ..., 2^(max-2)`. -/
theorem run_model_with_retry_spec {Res : Type} :
    (∀ (max_retries : Nat) (call : Nat → Except LlmErr Res) (e : LlmErr),
      1 ≤ max_retries → call 1 = .error e → _is_retryable e = false →
      _run_model_with_retry max_retries call = (.error (some e), [])) ∧
    (∀ (max_retries k : Nat) (call : Nat → Except LlmErr Res) (r : Res),
      k < max_retries →
      (∀ i, 1 ≤ i → i ≤ k → ∃ e, call i = .error e ∧ _is_retryable e = true) →
      call (k + 1) = .ok r →
      _run_model_with_retry max_retries call
        = (.ok r, (List.range k).map (fun j => 2 ^ j))) ∧
    (∀ (max_retries : Nat) (call : Nat → Except LlmErr Res) (e : LlmErr),
      1 ≤ max_retries →
      (∀ i, 1 ≤ i → i ≤ max_retries →
        ∃ e', call i = .error e' ∧ _is_retryable e' = true) →
      call max_retries = .error e →
      _run_model_with_retry max_retries call
        = (.error (some e),
            (List.range (max_retries - 1)).map (fun j => 2 ^ j))) := by
  refine ⟨?_, ?_, ?_⟩
  · intro max_retries call e hmax hc hnr
    have h0 : max_retries ≠ 0 := by omega
    simp only [_run_model_with_retry, if_neg h0,
      retryLoop_nonretryable call 1 (max_retries - 1) e hc hnr]
    rfl
  · intro max_retries k call r hk hfail hok
    have h0 : max_retries ≠ 0 := by omega
    have hloop := retryLoop_succeeds call r k 1 (max_retries - 1) (by omega)
      (fun i h1 h2 => hfail i h1 (by omega)) (by rw [← hok]; ring_nf)
    simp only [_run_model_with_retry, if_neg h0, hloop, Except.mapError,
      Prod.mk.injEq]
    refine ⟨trivial, ?_⟩
    apply List.map_congr_left
    intro j _
    congr 1
    omega
  · intro max_retries call e hmax hfail hlast
    have h0 : max_retries ≠ 0 := by omega
    have hloop := retryLoop_exhausts call e (max_retries - 1) 1
      (fun i h1 h2 => hfail i h1 (by omega))
      (by rw [← hlast]; congr 1; omega)
    simp only [_run_model_with_retry, if_neg h0, hloop, Except.mapError,
      Prod.mk.injEq]
    refine ⟨trivial, ?_⟩
    apply List.map_congr_left
    intro j _
    congr 1
    omega

/-- Witness for C3: a call failing twice with a rate limit and
succeeding on the third attempt, with a budget of 3 attempts, returns
the success after sleeping exactly `[1, 2]`; a call failing once
non-retryably returns that failure with no sleep. -/
theorem run_model_with_retry_spec_witness :
    _run_model_with_retry 3
      (fun n => if n < 3 then .error .rateLimit else .ok 42)
      = (.ok 42, [1, 2]) ∧
    _run_model_with_retry 3
      (fun _ => (.error (.other "bad request") : Except LlmErr Nat))
      = (.error (some (.other "bad request")), []) := by
  constructor
  · have h := (@run_model_with_retry_spec Nat).2.1 3 2
      (fun n => if n < 3 then .error .rateLimit else .ok 42) 42
      (by omega)
      (fun i h1 h2 => ⟨.rateLimit, by simp [show i < 3 by omega], rfl⟩)
      (by norm_num)
    simpa using h
  · exact (@run_model_with_retry_spec Nat).1 3
      (fun _ => .error (.other "bad request")) (.other "bad request")
      (by omega) rfl rfl

/-- C4: the fallback tier runs if and only if the primary tier's retry
policy surfaced a failure classified fallback-worthy; a primary success
is returned as-is with no fallback; a non-fallback-worthy primary
failure (including the no-attempt `RuntimeError` path, `error none`)
propagates with no fallback; a fallback-worthy primary failure leads to
the fallback tier's full retry result, so each invocation ends in
exactly one of primary success (flag `false`), fallback outcome
(flag `true`), or a propagated failure (the three shapes are mutually
exclusive). -/
theorem create_script_fallback_spec {Res : Type} (max_retries : Nat)
    (primary_call fallback_call : Nat → Except LlmErr Res) :
    (∀ r : Res, (_run_model_with_retry max_retries primary_call).1 = .ok r →
      create_script max_retries primary_call fallback_call = (.ok r, false)) ∧
    (∀ e : Option LlmErr,
      (_run_model_with_retry max_retries primary_call).1 = .error e →
      (∀ e', e = some e' → _is_fallback_worthy e' = false) →
      create_script max_retries primary_call fallback_call
        = (.error e, false)) ∧
    (∀ e : LlmErr,
      (_run_model_with_retry max_retries primary_call).1 = .error (some e) →
      _is_fallback_worthy e = true →
      create_script max_retries primary_call fallback_call
        = ((_run_model_with_retry max_retries fallback_call).1, true)) ∧
    ((∃ r : Res, create_script max_retries primary_call fallback_call
        = (.ok r, false) ∧
        (_run_model_with_retry max_retries primary_call).1 = .ok r) ∨
     (∃ r : Res, create_script max_retries primary_call fallback_call
        = (.ok r, true) ∧
        (_run_model_with_retry max_retries fallback_call).1 = .ok r ∧
        ∃ e, (_run_model_with_retry max_retries primary_call).1
            = .error (some e) ∧ _is_fallback_worthy e = true) ∨
     (∃ e : Option LlmErr,
        (create_script max_retries primary_call fallback_call).1
          = .error e)) := by
  refine ⟨?_, ?_, ?_, ?_⟩
  · intro r h
    simp [create_script, h]
  · intro e h hnw
    rcases e with _ | e'
    · simp [create_script, h]
    · simp [create_script, h, hnw e' rfl]
  · intro e h hw
    simp [create_script, h, hw]
  · rcases hp : (_run_model_with_retry max_retries primary_call).1 with e | r
    · rcases e with _ | e'
      · exact Or.inr (Or.inr ⟨none, by simp [create_script, hp]⟩)
      · by_cases hw : _is_fallback_worthy e' = true
        · rcases hf : (_run_model_with_retry max_retries fallback_call).1
            with e2 | r2
          · exact Or.inr (Or.inr ⟨e2, by simp [create_script, hp, hw, hf]⟩)
          · refine Or.inr (Or.inl ⟨r2, ?_, ?_, e', ?_, hw⟩)
            · simp [create_script, hp, hw, hf]
            · rfl
            · rfl
        · exact Or.inr (Or.inr ⟨some e',
            by simp [create_script, hp, Bool.eq_false_iff.mpr hw]⟩)
    · refine Or.inl ⟨r, ?_, ?_⟩
      · simp [create_script, hp]
      · rfl

/-- Witness for C4: a primary call that always times out exhausts its
three attempts with a fallback-worthy failure, so the fallback tier
runs and its success is returned with the fallback flag set; a primary
call that always fails with a client error propagates it with the flag
unset. -/
theorem create_script_fallback_spec_witness :
    create_script 3 (fun _ => (.error .apiTimeout : Except LlmErr Nat))
      (fun _ => .ok 7) = (.ok 7, true) ∧
    create_script 3 (fun _ => (.error (.other "bad") : Except LlmErr Nat))
      (fun _ => .ok 7) = (.error (some (.other "bad")), false) := by
  constructor
  · have h := (create_script_fallback_spec 3
      (fun _ => (.error .apiTimeout : Except LlmErr Nat)) (fun _ => .ok 7)).2.2.1
      .apiTimeout (by rfl) (by decide)
    rw [h]
    rfl
  · exact (create_script_fallback_spec 3
      (fun _ => (.error (.other "bad") : Except LlmErr Nat)) (fun _ => .ok 7)).2.1
      (some (.other "bad")) (by rfl)
      (fun e' he' => by cases he'; decide)

/-- Upserting a key into the ledger makes its membership test true. -/
theorem is_processed_mark_processed (proc : List (String × String))
    (id : String) (ts : Option String) (nowIso : String) :
    is_processed (mark_processed proc id ts nowIso) id = true := by
  simp only [is_processed, mark_processed, dictInsert]
  split
  · rename_i h
    simp only [List.any_eq_true, decide_eq_true_eq] at h ⊢
    obtain ⟨p, hp, hpk⟩ := h
    refine ⟨_, List.mem_map.mpr ⟨p, hp, rfl⟩, ?_⟩
    simp [hpk]
  · simp

/-- C10: outside dry-run, an item that reaches the existing-object
check and finds its key already in storage is counted as a duplicate
skip AND marked in the ledger with the current UTC timestamp, after
which the ledger membership test alone reports it as processed; the
loop then continues with the remaining items. -/
theorem existing_object_marks_ledger (max_items : Int)
    (parsedate : String → Option Int) (sha256hex asciiFold : String → String)
    (object_exists : String → Except String Bool)
    (body : RssItem → Except String BodyOutcome) (nowIso : String)
    (item : RssItem) (rest : List RssItem) (s : PipeState)
    (hbudget : ¬(max_items ≠ 0 ∧ max_items ≤ (s.processed_count : Int)))
    (hseen : item.item_id ∉ s.seen_item_ids)
    (himg : item.image_urls ≠ [])
    (hled : is_processed s.ledger item.item_id = false)
    (hex : object_exists (_build_video_key parsedate sha256hex asciiFold
      item.title item.item_id item.published) = .ok true) :
    runItems false max_items parsedate sha256hex asciiFold object_exists
        body nowIso (item :: rest) s
      = runItems false max_items parsedate sha256hex asciiFold object_exists
        body nowIso rest
        { s with
          seen_item_ids := s.seen_item_ids ++ [item.item_id],
          stats := { s.stats with
            skipped_duplicate := s.stats.skipped_duplicate + 1 },
          ledger := mark_processed s.ledger item.item_id (some nowIso) nowIso }
    ∧ is_processed
        (mark_processed s.ledger item.item_id (some nowIso) nowIso)
        item.item_id = true := by
  constructor
  · simp only [runItems, if_neg hbudget, if_neg hseen, if_neg himg, hled,
      Bool.false_eq_true, if_false, hex]
  · exact is_processed_mark_processed s.ledger item.item_id (some nowIso) nowIso

/-- Witness for C10: a fresh item whose key already exists in storage
is skipped as a duplicate, the ledger gains its id with the run
timestamp, and the membership test then reports it processed. -/
theorem existing_object_marks_ledger_witness :
    runItems false 0 parseDigits toySha toyFold (fun _ => .ok true)
        (fun _ => .ok .produced) "2026-02-10T00:00:00+00:00"
        [toyItem "i1" "Big Win" "1"] pipeInit
      = .ok { stats := { RunStats.init with skipped_duplicate := 1 },
              created := [], processed_count := 0,
              seen_item_ids := ["i1"],
              ledger := [("i1", "2026-02-10T00:00:00+00:00")] } ∧
    is_processed [("i1", "2026-02-10T00:00:00+00:00")] "i1" = true := by
  have h := existing_object_marks_ledger 0 parseDigits toySha toyFold
    (fun _ => .ok true) (fun _ => .ok .produced) "2026-02-10T00:00:00+00:00"
    (toyItem "i1" "Big Win" "1") [] pipeInit
    (by simp) (by simp [pipeInit]) (by simp [toyItem]) (by rfl) (by rfl)
  refine ⟨?_, by decide⟩
  rw [h.1]
  rfl

/-- C2: `_select_recent_items` keeps everything for a non-positive cap;
for a positive cap it returns exactly the top `cap` of the stable
newest-first sort — hence at most `cap` items, in descending parsed
publish time.  The final conjunct settles the "hard upper bound"
sentence against `load_settings`: the configured value is passed
through `_as_int` with default 5 and NO clamp, so
`MAX_RECENT_PER_FEED=99` yields a cap of 99, contradicting the
repository's own test `test_max_recent_per_feed_hard_capped_to_five`
(which asserts 5): the hard bound the spec and the test describe is
missing from the code. -/
theorem select_recent_items_cap_spec (parsedate : String → Option Int)
    (items : List RssItem) (max_recent : Int) :
    (max_recent ≤ 0 → _select_recent_items parsedate items max_recent = items) ∧
    (0 < max_recent →
      (_select_recent_items parsedate items max_recent).length
          ≤ max_recent.toNat ∧
      _select_recent_items parsedate items max_recent
        = (_sort_items_newest_first parsedate items).take max_recent.toNat ∧
      (_select_recent_items parsedate items max_recent).Pairwise
        (fun a b => itemKey parsedate b ≤ itemKey parsedate a)) ∧
    max_recent_per_feed_setting (some "99") = some 99 := by
  refine ⟨?_, ?_, by decide⟩
  · intro h
    simp only [_select_recent_items, if_pos h]
  · intro h
    have hne : ¬ max_recent ≤ 0 := by omega
    refine ⟨?_, ?_, ?_⟩
    · simp only [_select_recent_items, if_neg hne, List.length_take]
      exact min_le_left _ _
    · simp only [_select_recent_items, _sort_items_newest_first, if_neg hne]
    · have hsorted := @List.sorted_mergeSort RssItem
        (fun a b : RssItem =>
          decide (itemKey parsedate b ≤ itemKey parsedate a))
        (fun a b c hab hbc => by
          simp only [decide_eq_true_eq] at hab hbc ⊢; omega)
        (fun a b => by
          simp only [Bool.or_eq_true, decide_eq_true_eq]; omega)
        items
      have hsub : (_select_recent_items parsedate items max_recent).Sublist
          (items.mergeSort (fun a b =>
            decide (itemKey parsedate b ≤ itemKey parsedate a))) := by
        simp only [_select_recent_items, if_neg hne]
        exact List.take_sublist _ _
      exact (List.Pairwise.sublist hsub hsorted).imp (fun hab => by
        simpa using hab)

/-- Witness for C2: a negative cap keeps the whole list; a cap of 5 on
a two-item list gives at most five items and the take-of-sorted form. -/
theorem select_recent_items_cap_spec_witness :
    _select_recent_items parseDigits
      [toyItem "a" "A" "1", toyItem "b" "B" "2"] (-1)
      = [toyItem "a" "A" "1", toyItem "b" "B" "2"] ∧
    (_select_recent_items parseDigits
      [toyItem "a" "A" "1", toyItem "b" "B" "2"] 5).length ≤ (5 : Int).toNat ∧
    _select_recent_items parseDigits
      [toyItem "a" "A" "1", toyItem "b" "B" "2"] 5
      = (_sort_items_newest_first parseDigits
          [toyItem "a" "A" "1", toyItem "b" "B" "2"]).take (5 : Int).toNat := by
  refine ⟨?_, ?_, ?_⟩
  · exact (select_recent_items_cap_spec parseDigits
      [toyItem "a" "A" "1", toyItem "b" "B" "2"] (-1)).1 (by norm_num)
  · exact ((select_recent_items_cap_spec parseDigits
      [toyItem "a" "A" "1", toyItem "b" "B" "2"] 5).2.1 (by norm_num)).1
  · exact ((select_recent_items_cap_spec parseDigits
      [toyItem "a" "A" "1", toyItem "b" "B" "2"] 5).2.1 (by norm_num)).2.1

/-- The first element surviving `dropWhile` fails the predicate. -/
theorem dropWhile_head_false {α : Type} (p : α → Bool) :
    ∀ (l : List α) (x : α) (t : List α), l.dropWhile p = x :: t → p x = false := by
  intro l
  induction l with
  | nil => intro x t h; cases h
  | cons c cs ih =>
    intro x t h
    rw [List.dropWhile_cons] at h
    by_cases hc : p c = true
    · exact ih x t (by rwa [if_pos hc] at h)
    · rw [if_neg hc] at h
      cases h
      exact Bool.eq_false_iff.mpr hc

/-- A two-sided strip (`dropWhile` from the front, then from the
reversed list) is either empty or starts with an element failing the
predicate. -/
theorem stripBy_eq_nil_or_head {α : Type} (p : α → Bool) (l : List α) :
    ((l.dropWhile p).reverse.dropWhile p).reverse = [] ∨
    ∃ x t, ((l.dropWhile p).reverse.dropWhile p).reverse = x :: t ∧
      p x = false := by
  rcases h1 : l.dropWhile p with _ | ⟨x, t⟩
  · left; simp [h1]
  · right
    have hx : p x = false := dropWhile_head_false p l x t h1
    have hrev : (x :: t).reverse = t.reverse ++ [x] := by simp
    rw [hrev, List.dropWhile_append]
    by_cases he : (t.reverse.dropWhile p).isEmpty = true
    · rw [if_pos he]
      simp [List.dropWhile_cons, hx]
    · rw [if_neg he]
      exact ⟨x, (t.reverse.dropWhile p).reverse, by simp, hx⟩

/-- Stripping a list that starts with a surviving element is nonempty. -/
theorem stripBy_cons_ne_nil {α : Type} (p : α → Bool) (x : α) (rest : List α)
    (hx : p x = false) :
    (((x :: rest).dropWhile p).reverse.dropWhile p).reverse ≠ [] := by
  rw [List.dropWhile_cons, if_neg (by simp [hx])]
  have hrev : (x :: rest).reverse = rest.reverse ++ [x] := by simp
  rw [hrev, List.dropWhile_append]
  by_cases he : (rest.reverse.dropWhile p).isEmpty = true
  · rw [if_pos he]
    simp [List.dropWhile_cons, hx]
  · rw [if_neg he]
    simp only [ne_eq, List.reverse_eq_nil_iff, List.append_eq_nil]
    rintro ⟨-, h⟩
    cases h

/-- Elements of a two-sided strip come from the original list. -/
theorem mem_stripBy {α : Type} (p : α → Bool) (l : List α) (c : α)
    (h : c ∈ ((l.dropWhile p).reverse.dropWhile p).reverse) : c ∈ l := by
  rw [List.mem_reverse] at h
  have h2 := (List.dropWhile_suffix p).mem h
  rw [List.mem_reverse] at h2
  exact (List.dropWhile_suffix p).mem h2

/-- A two-sided strip never lengthens a list. -/
theorem stripBy_length_le {α : Type} (p : α → Bool) (l : List α) :
    ((l.dropWhile p).reverse.dropWhile p).reverse.length ≤ l.length := by
  rw [List.length_reverse]
  calc ((l.dropWhile p).reverse.dropWhile p).length
      ≤ (l.dropWhile p).reverse.length :=
        (List.dropWhile_suffix p).sublist.length_le
    _ = (l.dropWhile p).length := List.length_reverse _
    _ ≤ l.length := (List.dropWhile_suffix p).sublist.length_le

/-- Every character the hyphen-collapsing substitution emits is either
alphanumeric or a hyphen. -/
theorem collapseNonAlnum_chars :
    ∀ (l : List Char) (prev : Bool) (c : Char),
      c ∈ collapseNonAlnumAux prev l → isLowerAlnum c = true ∨ c = '-' := by
  intro l
  induction l with
  | nil => intro prev c h; cases h
  | cons d ds ih =>
    intro prev c h
    rw [collapseNonAlnumAux] at h
    by_cases hd : isLowerAlnum d = true
    · rw [if_pos hd] at h
      rcases List.mem_cons.mp h with rfl | h2
      · exact Or.inl hd
      · exact ih false c h2
    · rw [if_neg hd] at h
      by_cases hp : prev = true
      · subst hp
        rw [if_pos rfl] at h
        exact ih true c h
      · rw [if_neg hp] at h
        rcases List.mem_cons.mp h with rfl | h2
        · exact Or.inr rfl
        · exact ih true c h2

/-- Every character of a slug is a lower-case alphanumeric or a hyphen. -/
theorem slugify_chars (asciiFold : String → String) (text : String) (n : Nat) :
    (slugify asciiFold text n).data.all
      (fun c => isLowerAlnum c || c = '-') = true := by
  rw [List.all_eq_true]
  intro c hc
  simp only [slugify] at hc
  have h1 := mem_stripBy _ _ c hc
  have h2 : c ∈ (if (⟨stripDashList (collapseNonAlnumAux false
      (pyLower (asciiFold text)).data)⟩ : String) = "" then "clip"
      else ⟨stripDashList (collapseNonAlnumAux false
        (pyLower (asciiFold text)).data)⟩).data := List.take_subset _ _ h1
  by_cases hnil : (⟨stripDashList (collapseNonAlnumAux false
      (pyLower (asciiFold text)).data)⟩ : String) = ""
  · rw [if_pos hnil] at h2
    fin_cases h2 <;> decide
  · rw [if_neg hnil] at h2
    have h3 := mem_stripBy _ _ c h2
    rcases collapseNonAlnum_chars _ false c h3 with h | h
    · simp [h]
    · simp [h]

/-- The slug never exceeds the length cap. -/
theorem slugify_length (asciiFold : String → String) (text : String) (n : Nat) :
    (slugify asciiFold text n).data.length ≤ n := by
  simp only [slugify]
  calc (stripDashList ((if (⟨stripDashList (collapseNonAlnumAux false
        (pyLower (asciiFold text)).data)⟩ : String) = "" then "clip"
        else ⟨stripDashList (collapseNonAlnumAux false
          (pyLower (asciiFold text)).data)⟩).data.take n)).length
      ≤ ((if (⟨stripDashList (collapseNonAlnumAux false
          (pyLower (asciiFold text)).data)⟩ : String) = "" then "clip"
          else ⟨stripDashList (collapseNonAlnumAux false
            (pyLower (asciiFold text)).data)⟩).data.take n).length :=
        stripBy_length_le _ _
    _ ≤ n := by rw [List.length_take]; exact min_le_left _ _

/-- With a positive length cap the slug is never empty (the `"clip"`
fallback covers titles that fold to nothing). -/
theorem slugify_ne_empty (asciiFold : String → String) (text : String)
    (n : Nat) (hn : 0 < n) : (slugify asciiFold text n).data ≠ [] := by
  obtain ⟨m, rfl⟩ : ∃ m, n = m + 1 := ⟨n - 1, by omega⟩
  simp only [slugify]
  by_cases hnil : (⟨stripDashList (collapseNonAlnumAux false
      (pyLower (asciiFold text)).data)⟩ : String) = ""
  · rw [if_pos hnil]
    have : ("clip" : String).data.take (m + 1)
        = 'c' :: (['l', 'i', 'p'].take m) := rfl
    rw [this]
    exact stripBy_cons_ne_nil _ 'c' _ (by decide)
  · rw [if_neg hnil]
    have hL : stripDashList (collapseNonAlnumAux false
        (pyLower (asciiFold text)).data) ≠ [] := by
      intro h
      exact hnil (by rw [String.ext_iff]; exact h)
    rcases stripBy_eq_nil_or_head (fun c => decide (c = '-'))
      (collapseNonAlnumAux false (pyLower (asciiFold text)).data) with h | ⟨x, t, hxt, hx⟩
    · exact absurd h hL
    · show stripDashList ((⟨stripDashList (collapseNonAlnumAux false
        (pyLower (asciiFold text)).data)⟩ : String).data.take (m + 1)) ≠ []
      have hdata : (⟨stripDashList (collapseNonAlnumAux false
          (pyLower (asciiFold text)).data)⟩ : String).data = x :: t := hxt
      rw [hdata, List.take_succ_cons]
      exact stripBy_cons_ne_nil _ x _ hx

/-- C8: `_build_video_key` is deterministic (it is a pure function of
its inputs, so repeated calls coincide) and fixed-format: the key is
exactly the `videos/` year/month/day path from the parsed publish date
(epoch zero if unparseable), the title slug (all lower-alphanumeric or
hyphen, at most 70 characters, never empty thanks to the placeholder
`"clip"`), a hyphen, the first 10 characters of the hex SHA-256 of the
item id, and the `.mp4` extension. -/
theorem build_video_key_spec (parsedate : String → Option Int)
    (sha256hex asciiFold : String → String) (title id published : String) :
    _build_video_key parsedate sha256hex asciiFold title id published
      = _build_video_key parsedate sha256hex asciiFold title id published ∧
    _build_video_key parsedate sha256hex asciiFold title id published
      = "videos/"
        ++ strftimeYmd ((_parse_rss_datetime_utc parsedate published).getD 0)
        ++ "/" ++ slugify asciiFold title 70 ++ "-"
        ++ strTake (sha256hex id) 10 ++ ".mp4" ∧
    (slugify asciiFold title 70).data.all
      (fun c => isLowerAlnum c || c = '-') = true ∧
    (slugify asciiFold title 70).data.length ≤ 70 ∧
    (slugify asciiFold title 70).data ≠ [] ∧
    (strTake (sha256hex id) 10).data.length ≤ 10 := by
  refine ⟨rfl, rfl, slugify_chars _ _ _, slugify_length _ _ _,
    slugify_ne_empty _ _ _ (by norm_num), ?_⟩
  simp only [strTake, List.length_take]
  exact min_le_left _ _

/-- In dry-run the item loop always succeeds and never touches the
ledger, the produced list, or the processed counter. -/
theorem runItems_dry_total (max_items : Int) (pd : String → Option Int)
    (sha fold : String → String) (oe : String → Except String Bool)
    (body : RssItem → Except String BodyOutcome) (nowIso : String) :
    ∀ (items : List RssItem) (s : PipeState),
      ∃ s', runItems true max_items pd sha fold oe body nowIso items s = .ok s'
        ∧ s'.ledger = s.ledger ∧ s'.stats.processed = s.stats.processed
        ∧ s'.created = s.created
        ∧ s'.stats.retention_pruned_state = s.stats.retention_pruned_state := by
  intro items
  induction items with
  | nil => intro s; exact ⟨s, rfl, rfl, rfl, rfl, rfl⟩
  | cons item rest ih =>
    intro s
    simp only [runItems]
    split_ifs with h1 h2 h3 h4
    · exact ⟨s, rfl, rfl, rfl, rfl, rfl⟩
    · obtain ⟨s', hs', hl, hp, hc, hr⟩ := ih _
      exact ⟨s', hs', hl, hp, hc, hr⟩
    · obtain ⟨s', hs', hl, hp, hc, hr⟩ := ih _
      exact ⟨s', hs', hl, hp, hc, hr⟩
    · obtain ⟨s', hs', hl, hp, hc, hr⟩ := ih _
      exact ⟨s', hs', hl, hp, hc, hr⟩
    · obtain ⟨s', hs', hl, hp, hc, hr⟩ := ih _
      exact ⟨s', hs', hl, hp, hc, hr⟩

/-- In dry-run the item loop never consults the storage-existence
collaborator or the per-item body: the run is independent of them. -/
theorem runItems_dry_collab_free (max_items : Int) (pd : String → Option Int)
    (sha fold : String → String) (oe1 oe2 : String → Except String Bool)
    (b1 b2 : RssItem → Except String BodyOutcome) (nowIso : String) :
    ∀ (items : List RssItem) (s : PipeState),
      runItems true max_items pd sha fold oe1 b1 nowIso items s
        = runItems true max_items pd sha fold oe2 b2 nowIso items s := by
  intro items
  induction items with
  | nil => intro s; rfl
  | cons item rest ih =>
    intro s
    simp only [runItems]
    split_ifs <;> first | rfl | exact ih _

/-- C9: in dry-run mode the whole pipeline is independent of the
storage-existence and item-body collaborators (no external side effect
can influence or be influenced by it), always succeeds, performs no
save (`saved_ledger = none`), no prune (count 0), produces nothing, and
ends with the ledger it started with (the fresh empty one: dry-run
never loads nor marks the ledger); the would-be-processed count is
tracked by `processed_count` alone, as the concrete two-fresh-items run
shows (both items counted, no ledger entry, collaborators erroring on
every call are never consulted). -/
theorem dry_run_frame (settings : SettingsM) (max_items : Int)
    (pd pIso : String → Option Int) (sha fold : String → String)
    (oe1 oe2 : String → Except String Bool)
    (b1 b2 : RssItem → Except String BodyOutcome)
    (ledger : List (String × String))
    (feeds : List (Except String (List RssItem))) (nowIso : String)
    (now : Int) :
    run_pipeline settings true max_items pd pIso sha fold oe1 b1 ledger
        feeds nowIso now
      = run_pipeline settings true max_items pd pIso sha fold oe2 b2 ledger
        feeds nowIso now ∧
    (∃ out, run_pipeline settings true max_items pd pIso sha fold oe1 b1
        ledger feeds nowIso now = .ok out ∧
      out.saved_ledger = none ∧ out.final.ledger = [] ∧
      out.final.stats.retention_pruned_state = 0 ∧
      out.final.stats.processed = 0 ∧ out.final.created = []) ∧
    runItems true 0 parseDigits toySha toyFold
        (fun _ => .error "network down") (fun _ => .error "boom") "now"
        [toyItem "i1" "One" "1", toyItem "i2" "Two" "2"] pipeInit
      = .ok { pipeInit with
          processed_count := 2
          seen_item_ids := ["i1", "i2"] } := by
  refine ⟨?_, ?_, by rfl⟩
  · simp only [run_pipeline, if_true, bind, Except.bind, pure, Except.pure]
    rw [runItems_dry_collab_free max_items pd sha fold oe1 oe2 b1 b2 nowIso]
  · simp only [run_pipeline, if_true, bind, Except.bind, pure, Except.pure]
    obtain ⟨s', hs', hl, hp, hc, hr⟩ := runItems_dry_total max_items pd sha
      fold oe1 b1 nowIso
      (_sort_items_newest_first pd
        (_select_first_chronological_unique_stories pd
          (feeds.foldl (fun (st : List RssItem × Nat) f =>
            match f with
            | .ok its =>
              (st.1 ++ _select_recent_items pd its settings.max_recent_per_feed,
               st.2)
            | .error _ => (st.1, st.2 + 1)) ([], 0)).1).1)
      { stats := { RunStats.init with
          entries_seen := (feeds.foldl (fun (st : List RssItem × Nat) f =>
            match f with
            | .ok its =>
              (st.1 ++ _select_recent_items pd its settings.max_recent_per_feed,
               st.2)
            | .error _ => (st.1, st.2 + 1)) ([], 0)).1.length,
          skipped_same_story := (_select_first_chronological_unique_stories pd
            (feeds.foldl (fun (st : List RssItem × Nat) f =>
              match f with
              | .ok its =>
                (st.1 ++ _select_recent_items pd its
                  settings.max_recent_per_feed, st.2)
              | .error _ => (st.1, st.2 + 1)) ([], 0)).1).2.length,
          errors := (feeds.foldl (fun (st : List RssItem × Nat) f =>
            match f with
            | .ok its =>
              (st.1 ++ _select_recent_items pd its settings.max_recent_per_feed,
               st.2)
            | .error _ => (st.1, st.2 + 1)) ([], 0)).2 },
        created := [], processed_count := 0, seen_item_ids := [],
        ledger := [] }
    rw [hs']
    exact ⟨{ final := s', saved_ledger := none }, rfl, rfl, hl, hr, hp, hc⟩

/-- Counterexample to C6 as stated: an exception raised while
processing an item is NOT always caught at the item boundary.  The
existing-object storage check runs before the per-item `try:` block
(`run.py` line 262 vs. line 286), so when it raises (here: the first
item's check fails with a connection error) the whole run aborts — the
error counter is not incremented and the remaining item is never
examined. -/
theorem item_exception_aborts_run :
    runItems false 0 parseDigits toySha toyFold
        (fun _ => .error "connection reset") (fun _ => .ok .produced) "now"
        [toyItem "i1" "One" "1", toyItem "i2" "Two" "2"] pipeInit
      = .error "connection reset" := by
  rfl

/-- C6 (amended): an exception raised inside an item's per-item `try:`
body (image download, narration, speech, render, upload) is caught at
the item boundary, increments the error counter, and the loop
continues — whenever the storage existence check itself does not raise,
the loop always terminates normally; concretely, with the middle item
of three failing in its body, the run finishes with one error, the
other two items produced, and their ledger marks.  Missing required
credentials (here `OPENAI_API_KEY`) abort the run before any item or
feed is examined. -/
theorem failure_containment_amended :
    (∀ (max_items : Int) (pd : String → Option Int)
      (sha fold : String → String) (oe : String → Except String Bool)
      (body : RssItem → Except String BodyOutcome) (nowIso : String),
      (∀ k, ∃ b, oe k = .ok b) →
      ∀ (items : List RssItem) (s : PipeState),
        ∃ s', runItems false max_items pd sha fold oe body nowIso items s
          = .ok s') ∧
    runItems false 0 parseDigits toySha toyFold (fun _ => .ok false)
        (fun it => if it.item_id = "i2" then .error "boom" else .ok .produced)
        "now"
        [toyItem "i1" "One" "1", toyItem "i2" "Two" "2",
         toyItem "i3" "Three" "3"] pipeInit
      = .ok { stats := { RunStats.init with processed := 2, errors := 1 },
              created := ["i1", "i3"], processed_count := 2,
              seen_item_ids := ["i1", "i2", "i3"],
              ledger := [("i1", "now"), ("i3", "now")] } ∧
    (∀ (max_items : Int) (pd pIso : String → Option Int)
      (sha fold : String → String) (oe : String → Except String Bool)
      (body : RssItem → Except String BodyOutcome)
      (ledger : List (String × String))
      (feeds : List (Except String (List RssItem)))
      (nowIso : String) (now : Int),
      run_pipeline toySettings false max_items pd pIso sha fold oe body
          ledger feeds nowIso now
        = .error "Missing required environment variable: OPENAI_API_KEY") := by
  refine ⟨?_, by rfl, ?_⟩
  · intro max_items pd sha fold oe body nowIso hoe items
    induction items with
    | nil => intro s; exact ⟨s, rfl⟩
    | cons item rest ih =>
      intro s
      simp only [runItems]
      split_ifs with h1 h2 h3 h4 h5
      · exact ⟨s, rfl⟩
      · exact ih _
      · exact ih _
      · exact ih _
      · exact h5.elim
      · obtain ⟨b, hb⟩ := hoe (_build_video_key pd sha fold item.title
          item.item_id item.published)
        rw [hb]
        cases b
        · rcases hbody : body item with e | o
          · exact ih _
          · cases o
            · exact ih _
            · exact ih _
        · exact ih _
  · intro max_items pd pIso sha fold oe body ledger feeds nowIso now
    rfl

/-- Witness for C6 (amended): the containment part applied at a
concrete loop whose body always raises still yields a normal result. -/
theorem failure_containment_amended_witness :
    ∃ s', runItems false 0 parseDigits toySha toyFold (fun _ => .ok false)
        (fun _ => .error "always boom") "now"
        [toyItem "i1" "One" "1"] pipeInit = .ok s' := by
  exact failure_containment_amended.1 0 parseDigits toySha toyFold
    (fun _ => .ok false) (fun _ => .error "always boom") "now"
    (fun k => ⟨false, rfl⟩) [toyItem "i1" "One" "1"] pipeInit

/-- The inner loop of phase one keeps the run-length dictionary bounded
by the number of rows processed and preserves the window bounds. -/
theorem flmInner_inv (alo ahi i0 : Nat) (hi0lo : alo ≤ i0) (hi0hi : i0 < ahi)
    (old : Nat → Nat) (hold : ∀ x, old x ≤ i0 - alo) (js : List Nat)
    (best : FlmBest) (hbest : FlmInv alo ahi best) :
    (∀ x, (flmInner old i0 js best).1 x ≤ i0 + 1 - alo) ∧
      FlmInv alo ahi (flmInner old i0 js best).2 := by
  simp only [flmInner]
  apply foldl_inv
    (P := fun q : (Nat → Nat) × FlmBest =>
      (∀ x, q.1 x ≤ i0 + 1 - alo) ∧ FlmInv alo ahi q.2)
  · exact ⟨fun x => Nat.zero_le _, hbest⟩
  · rintro q j - ⟨hq1, hq2⟩
    have hk : (if j = 0 then 0 else old (j - 1)) + 1 ≤ i0 + 1 - alo := by
      split_ifs with hj
      · omega
      · have := hold (j - 1)
        omega
    have hk1 : 1 ≤ (if j = 0 then 0 else old (j - 1)) + 1 := by omega
    constructor
    · intro x
      show (if x = j then (if j = 0 then 0 else old (j - 1)) + 1 else q.1 x)
        ≤ i0 + 1 - alo
      by_cases hx : x = j
      · rw [if_pos hx]
        exact hk
      · rw [if_neg hx]
        exact hq1 x
    · show FlmInv alo ahi
        (if q.2.bestsize < (if j = 0 then 0 else old (j - 1)) + 1 then
          ⟨i0 + 1 - ((if j = 0 then 0 else old (j - 1)) + 1),
           j + 1 - ((if j = 0 then 0 else old (j - 1)) + 1),
           (if j = 0 then 0 else old (j - 1)) + 1⟩ else q.2)
      by_cases hlt : q.2.bestsize < (if j = 0 then 0 else old (j - 1)) + 1
      · rw [if_pos hlt]
        generalize hKg : (if j = 0 then 0 else old (j - 1)) + 1 = K at hk hk1
        refine ⟨?_, ?_⟩
        · show alo ≤ i0 + 1 - K
          omega
        · show i0 + 1 - K + K ≤ ahi
          omega
      · rw [if_neg hlt]
        exact hq2

/-- Phase one of `find_longest_match` satisfies the window bounds. -/
theorem flmPhase1_inv (a b : List Char) (alo ahi blo bhi : Nat)
    (h : alo ≤ ahi) : FlmInv alo ahi (flmPhase1 a b alo ahi blo bhi) := by
  suffices H : ∀ (n i0 : Nat) (st : (Nat → Nat) × FlmBest), alo ≤ i0 →
      i0 + n = ahi → (∀ x, st.1 x ≤ i0 - alo) → FlmInv alo ahi st.2 →
      FlmInv alo ahi (((List.range' i0 n).foldl
        (fun st i =>
          let js := (b2j b (a.getD i ' ')).filter
            (fun j => decide (blo ≤ j) && decide (j < bhi))
          flmInner st.1 i js st.2) st)).2 by
    refine H (ahi - alo) alo _ le_rfl (by omega) (fun x => Nat.zero_le _) ?_
    constructor
    · show alo ≤ alo
      exact le_rfl
    · show alo + 0 ≤ ahi
      omega
  intro n
  induction n with
  | zero =>
    intro i0 st _ _ _ hb
    simpa using hb
  | succ n ih =>
    intro i0 st h1 h2 hdict hbest
    rw [List.range'_succ, List.foldl_cons]
    simp only []
    have hin := flmInner_inv alo ahi i0 h1 (by omega) st.1 hdict
      ((b2j b (a.getD i0 ' ')).filter
        (fun j => decide (blo ≤ j) && decide (j < bhi))) st.2 hbest
    exact ih (i0 + 1) _ (by omega) (by omega)
      (fun x => by have := hin.1 x; omega) hin.2

/-- The backward extension loops preserve the window bounds. -/
theorem flmExtendBack_inv (jw : Bool) (a b : List Char) (alo blo ahi : Nat) :
    ∀ (fuel : Nat) (st : FlmBest), FlmInv alo ahi st →
      FlmInv alo ahi (flmExtendBack jw a b alo blo fuel st) := by
  intro fuel
  induction fuel with
  | zero => intro st h; exact h
  | succ fuel ih =>
    intro st h
    rw [flmExtendBack]
    split_ifs with hc
    · apply ih
      obtain ⟨hg1, -, -, -⟩ := hc
      obtain ⟨h1, h2⟩ := h
      refine ⟨?_, ?_⟩
      · show alo ≤ st.besti - 1
        omega
      · show st.besti - 1 + (st.bestsize + 1) ≤ ahi
        omega
    · exact h

/-- The forward extension loops preserve the window bounds. -/
theorem flmExtendFwd_inv (jw : Bool) (a b : List Char) (ahi bhi alo : Nat) :
    ∀ (fuel : Nat) (st : FlmBest), FlmInv alo ahi st →
      FlmInv alo ahi (flmExtendFwd jw a b ahi bhi fuel st) := by
  intro fuel
  induction fuel with
  | zero => intro st h; exact h
  | succ fuel ih =>
    intro st h
    rw [flmExtendFwd]
    split_ifs with hc
    · apply ih
      obtain ⟨hg1, -, -, -⟩ := hc
      obtain ⟨h1, h2⟩ := h
      refine ⟨?_, ?_⟩
      · show alo ≤ st.besti
        exact h1
      · show st.besti + (st.bestsize + 1) ≤ ahi
        omega
    · exact h

/-- The function `find_longest_match` returns a window inside
`[alo, ahi]` on the `a` side. -/
theorem findLongestMatch_bounds (a b : List Char) (alo ahi blo bhi : Nat)
    (h : alo ≤ ahi) : FlmInv alo ahi (findLongestMatch a b alo ahi blo bhi) := by
  simp only [findLongestMatch]
  apply flmExtendFwd_inv
  apply flmExtendBack_inv
  apply flmExtendFwd_inv
  apply flmExtendBack_inv
  exact flmPhase1_inv a b alo ahi blo bhi h

/-- The total matching-block size never exceeds the `a`-window length. -/
theorem matchSumFuel_le (a b : List Char) :
    ∀ (fuel alo ahi blo bhi : Nat), alo ≤ ahi →
      matchSumFuel a b fuel alo ahi blo bhi ≤ ahi - alo := by
  intro fuel
  induction fuel with
  | zero =>
    intro alo ahi blo bhi _
    simp [matchSumFuel]
  | succ fuel ih =>
    intro alo ahi blo bhi h
    simp only [matchSumFuel]
    set m := findLongestMatch a b alo ahi blo bhi with hm
    obtain ⟨hb1, hb2⟩ := findLongestMatch_bounds a b alo ahi blo bhi h
    rw [← hm] at hb1 hb2
    by_cases h0 : m.bestsize = 0
    · rw [if_pos h0]
      omega
    · rw [if_neg h0]
      have hL : (if alo < m.besti ∧ blo < m.bestj then
          matchSumFuel a b fuel alo m.besti blo m.bestj else 0)
          ≤ m.besti - alo := by
        split_ifs with hg
        · exact ih _ _ _ _ (le_of_lt hg.1)
        · omega
      have hR : (if m.besti + m.bestsize < ahi ∧
            m.bestj + m.bestsize < bhi then
          matchSumFuel a b fuel (m.besti + m.bestsize) ahi
            (m.bestj + m.bestsize) bhi else 0)
          ≤ ahi - (m.besti + m.bestsize) := by
        split_ifs with hg
        · exact ih _ _ _ _ hb2
        · omega
      omega

/-- The sequence ratio of a string against itself is at most one (the
matching-block total is bounded by the string length). -/
theorem seqRatio_self_le_one (t : String) : seqRatio t t ≤ 1 := by
  simp only [seqRatio]
  by_cases h : t.data.length + t.data.length = 0
  · rw [if_pos h]
  · rw [if_neg h]
    have hM := matchSumFuel_le t.data t.data t.data.length 0 t.data.length 0
      t.data.length (Nat.zero_le _)
    have hM' : matchSumFuel t.data t.data t.data.length 0 t.data.length 0
        t.data.length ≤ t.data.length := by omega
    have hlen : 0 < t.data.length := by omega
    rw [div_le_one (by positivity)]
    have hcast : (matchSumFuel t.data t.data t.data.length 0 t.data.length 0
        t.data.length : ℚ) ≤ (t.data.length : ℚ) := by exact_mod_cast hM'
    linarith

/-- The split helper returns something as soon as a non-whitespace
character remains or a token is in progress. -/
theorem splitWsAux_ne_nil :
    ∀ (l acc : List Char), ((∃ c ∈ l, isPyWs c = false) ∨ acc ≠ []) →
      splitWsAux l acc ≠ [] := by
  intro l
  induction l with
  | nil =>
    intro acc h
    rcases h with ⟨c, hc, -⟩ | hacc
    · cases hc
    · cases acc with
      | nil => exact absurd rfl hacc
      | cons y ys => simp [splitWsAux]
  | cons c cs ih =>
    intro acc h
    simp only [splitWsAux]
    split_ifs with hws hacc
    · apply ih []
      left
      rcases h with ⟨c', hc', hcws⟩ | hacc'
      · rcases List.mem_cons.mp hc' with rfl | hmem
        · rw [hws] at hcws
          cases hcws
        · exact ⟨c', hmem, hcws⟩
      · exact absurd hacc hacc'
    · simp
    · apply ih (c :: acc)
      right
      simp
  

/-- Splitting a string containing a non-whitespace character with
`str.split()` gives a nonempty list. -/
theorem pySplit_ne_nil (s : String)
    (h : ∃ c ∈ s.data, isPyWs c = false) : pySplit s ≠ [] := by
  intro hnil
  apply splitWsAux_ne_nil s.data [] (Or.inl h)
  have hlen := congrArg List.length hnil
  simp only [pySplit, List.length_map, List.length_nil] at hlen
  exact List.length_eq_zero.mp hlen

/-- A nonempty normalised story text starts with a non-whitespace
character (the normalisation ends in a two-sided strip). -/
theorem normalize_head (s : String) (h : _normalize_story_text s ≠ "") :
    ∃ x t, (_normalize_story_text s).data = x :: t ∧ isPyWs x = false := by
  rcases stripBy_eq_nil_or_head isPyWs
    (collapseWsAux false ((stripTagsList (pyLower s).data).map
      (fun c => if isLowerAlnum c || isPyWs c then c else ' ')))
    with h0 | ⟨x, t, hxt, hx⟩
  · exfalso
    apply h
    rw [String.ext_iff]
    exact h0
  · exact ⟨x, t, hxt, hx⟩

/-- Identical nonempty normalised texts give similarity exactly one:
the token-set Jaccard of equal nonempty token sets is one, and the
character ratio cannot exceed one. -/
theorem story_similarity_identical_one (a b : RssItem)
    (h : _story_text a = _story_text b) (hne : _story_text a ≠ "") :
    _story_similarity a b = 1 := by
  simp only [_story_similarity, ← h]
  rw [if_neg (by simp [hne])]
  obtain ⟨x, t, hxt, hx⟩ := normalize_head (a.title ++ " " ++ a.summary) hne
  have htok : tokenSet (_story_text a) ≠ ∅ := by
    simp only [tokenSet, ne_eq, List.toFinset_eq_empty_iff]
    apply pySplit_ne_nil
    exact ⟨x, by rw [show (_story_text a).data = x :: t from hxt]; simp, hx⟩
  rw [if_neg (by simp [htok])]
  rw [Finset.inter_self, Finset.union_self]
  have hcard : ((tokenSet (_story_text a)).card : ℚ) ≠ 0 := by
    rw [Nat.cast_ne_zero]
    intro h0
    exact htok (Finset.card_eq_zero.mp h0)
  rw [div_self hcard]
  exact max_eq_right (seqRatio_self_le_one _)

/-- Counterexample to C7 as stated: two items with identical normalised
title+summary texts for which the similarity is NOT `1.0`.  When both
normalised texts are empty (here: empty titles and summaries) they are
identical, yet `_story_similarity` returns its empty-text result `0.0`:
the universally quantified "identical implies 1.0" conjunct fails on
the empty case that the claim's own empty-text conjunct carves out. -/
theorem story_similarity_identical_not_one :
    _story_text (toyItem "E1" "" "") = _story_text (toyItem "E2" "" "") ∧
    _story_similarity (toyItem "E1" "" "") (toyItem "E2" "" "") = 0 ∧
    ((0 : ℚ) ≠ 1) := by
  refine ⟨rfl, by rfl, by norm_num⟩

/-- C7 (amended): for items whose normalised texts are identical AND
nonempty the similarity is exactly one; when either normalised text is
empty the similarity is zero; otherwise it is the maximum of the
character-sequence ratio and the token-set Jaccard similarity (zero
Jaccard for empty token sets). -/
theorem story_similarity_spec (a b : RssItem) :
    (_story_text a = _story_text b → _story_text a ≠ "" →
      _story_similarity a b = 1) ∧
    (_story_text a = "" ∨ _story_text b = "" → _story_similarity a b = 0) ∧
    (_story_text a ≠ "" → _story_text b ≠ "" →
      _story_similarity a b
        = max (seqRatio (_story_text a) (_story_text b))
            (if tokenSet (_story_text a) = ∅ ∨ tokenSet (_story_text b) = ∅
              then 0
              else ((tokenSet (_story_text a)
                  ∩ tokenSet (_story_text b)).card : ℚ)
                / ((tokenSet (_story_text a)
                  ∪ tokenSet (_story_text b)).card : ℚ))) := by
  refine ⟨story_similarity_identical_one a b, ?_, ?_⟩
  · intro h
    simp only [_story_similarity]
    rw [if_pos h]
  · intro h1 h2
    simp only [_story_similarity]
    rw [if_neg (by push_neg; exact ⟨h1, h2⟩)]

/-- Witness for C7 (amended): two items with the same nonempty
normalised text have similarity one; an empty-text pair has zero. -/
theorem story_similarity_spec_witness :
    _story_similarity (toyItem "A" "alphawin" "1")
      (toyItem "B" "alphawin" "2") = 1 ∧
    _story_similarity (toyItem "E1" "" "") (toyItem "A" "alphawin" "1")
      = 0 := by
  constructor
  · exact (story_similarity_spec (toyItem "A" "alphawin" "1")
      (toyItem "B" "alphawin" "2")).1 rfl (by decide)
  · exact (story_similarity_spec (toyItem "E1" "" "")
      (toyItem "A" "alphawin" "1")).2.1 (Or.inl rfl)

/-- Two sorted permutations of each other with pairwise-distinct sort
keys are equal (sortedness plus key-injectivity pins the order). -/
theorem sorted_perm_eq_of_nodup_keys {α : Type} (key : α → Int) :
    ∀ (l₁ l₂ : List α), l₁.Perm l₂ →
      l₁.Pairwise (fun x y => key x ≤ key y) →
      l₂.Pairwise (fun x y => key x ≤ key y) →
      (l₁.map key).Nodup → l₁ = l₂ := by
  intro l₁
  induction l₁ with
  | nil =>
    intro l₂ hp _ _ _
    exact (hp.symm.eq_nil).symm
  | cons a t₁ ih =>
    intro l₂ hp hs₁ hs₂ hnd
    cases l₂ with
    | nil => exact absurd hp.eq_nil (by simp)
    | cons b t₂ =>
      have hab : a = b := by
        have hainl2 : a ∈ b :: t₂ := hp.mem_iff.mp (List.mem_cons_self a t₁)
        have hbinl1 : b ∈ a :: t₁ := hp.mem_iff.mpr (List.mem_cons_self b t₂)
        rcases List.mem_cons.mp hainl2 with h | hat2
        · exact h
        rcases List.mem_cons.mp hbinl1 with h | hbt1
        · exact h.symm
        exfalso
        have h1 : key a ≤ key b := (List.pairwise_cons.mp hs₁).1 b hbt1
        have h2 : key b ≤ key a := (List.pairwise_cons.mp hs₂).1 a hat2
        have hk : key a = key b := le_antisymm h1 h2
        have hmem : key b ∈ t₁.map key := List.mem_map_of_mem key hbt1
        have hnd' : key a ∉ t₁.map key ∧ (t₁.map key).Nodup :=
          List.nodup_cons.mp (by simpa using hnd)
        rw [← hk] at hmem
        exact hnd'.1 hmem
      subst hab
      have ht : t₁.Perm t₂ := hp.cons_inv
      have heq := ih t₂ ht (List.pairwise_cons.mp hs₁).2
        (List.pairwise_cons.mp hs₂).2
        (List.nodup_cons.mp (by simpa using hnd)).2
      rw [heq]

/-- When every item has a distinct parsed publish time, the
oldest-first sort is determined by the set of items alone. -/
theorem sort_oldest_first_perm_invariant (parsedate : String → Option Int)
    (items₁ items₂ : List RssItem) (hperm : items₁.Perm items₂)
    (hnd : (items₁.map (itemKey parsedate)).Nodup) :
    _sort_items_oldest_first parsedate items₁
      = _sort_items_oldest_first parsedate items₂ := by
  have htrans : ∀ a b c : RssItem,
      (decide (itemKey parsedate a ≤ itemKey parsedate b)) = true →
      (decide (itemKey parsedate b ≤ itemKey parsedate c)) = true →
      (decide (itemKey parsedate a ≤ itemKey parsedate c)) = true := by
    intro a b c hab hbc
    simp only [decide_eq_true_eq] at hab hbc ⊢
    omega
  have htotal : ∀ a b : RssItem,
      ((decide (itemKey parsedate a ≤ itemKey parsedate b))
        || (decide (itemKey parsedate b ≤ itemKey parsedate a))) = true := by
    intro a b
    simp only [Bool.or_eq_true, decide_eq_true_eq]
    omega
  apply sorted_perm_eq_of_nodup_keys (itemKey parsedate)
  · exact ((List.mergeSort_perm items₁ _).trans hperm).trans
      (List.mergeSort_perm items₂ _).symm
  · exact (List.sorted_mergeSort htrans htotal items₁).imp
      (fun h => by simpa using h)
  · exact (List.sorted_mergeSort htrans htotal items₂).imp
      (fun h => by simpa using h)
  · exact (((List.mergeSort_perm items₁ _).map (itemKey parsedate)).nodup_iff).mpr
      hnd

/-- With pairwise-distinct parsed publish times, the dedup selector is
invariant under any permutation of its input. -/
theorem select_stories_perm_invariant (parsedate : String → Option Int)
    (threshold : ℚ) (items₁ items₂ : List RssItem)
    (hperm : items₁.Perm items₂)
    (hnd : (items₁.map (itemKey parsedate)).Nodup) :
    _select_first_chronological_unique_stories parsedate items₁ threshold
      = _select_first_chronological_unique_stories parsedate items₂
        threshold := by
  simp only [_select_first_chronological_unique_stories]
  rw [sort_oldest_first_perm_invariant parsedate items₁ items₂ hperm hnd]

/-- The "distinct story" toy item shares no character and no token with
the "alphawin" story, so every similarity signal is zero. -/
theorem story_similarity_CA :
    _story_similarity (toyItem "C" "zzz" "3") (toyItem "A" "alphawin" "1")
      = 0 := by
  have htC : _story_text (toyItem "C" "zzz" "3") = "zzz" := rfl
  have htA : _story_text (toyItem "A" "alphawin" "1") = "alphawin" := rfl
  simp only [_story_similarity, htC, htA]
  rw [if_neg (by decide)]
  have hM : matchSumFuel ("zzz" : String).data ("alphawin" : String).data
      ("zzz" : String).data.length 0 ("zzz" : String).data.length 0
      ("alphawin" : String).data.length = 0 := by decide
  have hr : seqRatio "zzz" "alphawin" = 0 := by
    simp only [seqRatio]
    rw [if_neg (by decide), hM]
    norm_num
  rw [hr]
  rw [if_neg (by decide)]
  have hi : (tokenSet "zzz" ∩ tokenSet "alphawin").card = 0 := by decide
  have hu : (tokenSet "zzz" ∪ tokenSet "alphawin").card = 2 := by decide
  rw [hi, hu]
  norm_num

/-- Sorting the scrambled list oldest-first yields `[A, B, C]`. -/
theorem sort_BAC :
    _sort_items_oldest_first parseDigits [itemB, itemA, itemC]
      = [itemA, itemB, itemC] := by
  have htrans : ∀ a b c : RssItem,
      (decide (itemKey parseDigits a ≤ itemKey parseDigits b)) = true →
      (decide (itemKey parseDigits b ≤ itemKey parseDigits c)) = true →
      (decide (itemKey parseDigits a ≤ itemKey parseDigits c)) = true := by
    intro a b c hab hbc
    simp only [decide_eq_true_eq] at hab hbc ⊢
    omega
  have htotal : ∀ a b : RssItem,
      ((decide (itemKey parseDigits a ≤ itemKey parseDigits b))
        || (decide (itemKey parseDigits b ≤ itemKey parseDigits a))) = true := by
    intro a b
    simp only [Bool.or_eq_true, decide_eq_true_eq]
    omega
  apply sorted_perm_eq_of_nodup_keys (itemKey parseDigits)
  · exact (List.mergeSort_perm _ _).trans (by decide)
  · exact (List.sorted_mergeSort htrans htotal _).imp (fun h => by simpa using h)
  · decide
  · exact (((List.mergeSort_perm _ _).map (itemKey parseDigits)).nodup_iff).mpr
      (by decide)

/-- The dedup run on `[B, A, C]`: `A` is kept as the first report, `B`
is skipped against it, `C` is kept. -/
theorem select_BAC :
    _select_first_chronological_unique_stories parseDigits
      [itemB, itemA, itemC] = ([itemA, itemC], [("B", "A")]) := by
  have hdBA : decide ((84 : ℚ)/100 ≤ _story_similarity itemB itemA) = true := by
    rw [story_similarity_identical_one itemB itemA rfl (by decide)]
    exact decide_eq_true (by norm_num)
  have hdCA : decide ((84 : ℚ)/100 ≤ _story_similarity itemC itemA) = false := by
    rw [show _story_similarity itemC itemA = 0 from story_similarity_CA]
    exact decide_eq_false (by norm_num)
  simp only [_select_first_chronological_unique_stories]
  rw [sort_BAC]
  simp only [List.foldl_cons, List.foldl_nil, List.find?_nil, List.find?_cons,
    hdBA, hdCA, Option.map_none', Option.map_some', List.nil_append,
    dictInsert, List.any_nil, Bool.false_eq_true, ite_false, ite_true,
    show ¬itemA.item_id = "" by decide]
  decide

/-- The dedup run on the already-ordered `[A, B, C]` gives the same
result. -/
theorem select_ABC :
    _select_first_chronological_unique_stories parseDigits
      [itemA, itemB, itemC] = ([itemA, itemC], [("B", "A")]) := by
  have hsort : _sort_items_oldest_first parseDigits [itemA, itemB, itemC]
      = [itemA, itemB, itemC] := List.mergeSort_of_sorted (by decide)
  have hdBA : decide ((84 : ℚ)/100 ≤ _story_similarity itemB itemA) = true := by
    rw [story_similarity_identical_one itemB itemA rfl (by decide)]
    exact decide_eq_true (by norm_num)
  have hdCA : decide ((84 : ℚ)/100 ≤ _story_similarity itemC itemA) = false := by
    rw [show _story_similarity itemC itemA = 0 from story_similarity_CA]
    exact decide_eq_false (by norm_num)
  simp only [_select_first_chronological_unique_stories]
  rw [hsort]
  simp only [List.foldl_cons, List.foldl_nil, List.find?_nil, List.find?_cons,
    hdBA, hdCA, Option.map_none', Option.map_some', List.nil_append,
    dictInsert, List.any_nil, Bool.false_eq_true, ite_false, ite_true,
    show ¬itemA.item_id = "" by decide]
  decide

/-- With tied (unparseable) publish times, `[X, Y]` dedups to keeper
`X` (stable sort keeps input order, so `X` is processed first). -/
theorem select_XY :
    _select_first_chronological_unique_stories parseDigits [itemX, itemY]
      = ([itemX], [("Y", "X")]) := by
  have hsort : _sort_items_oldest_first parseDigits [itemX, itemY]
      = [itemX, itemY] := List.mergeSort_of_sorted (by decide)
  have hdYX : decide ((84 : ℚ)/100 ≤ _story_similarity itemY itemX) = true := by
    rw [story_similarity_identical_one itemY itemX rfl (by decide)]
    exact decide_eq_true (by norm_num)
  simp only [_select_first_chronological_unique_stories]
  rw [hsort]
  simp only [List.foldl_cons, List.foldl_nil, List.find?_nil, List.find?_cons,
    hdYX, Option.map_none', Option.map_some', List.nil_append,
    dictInsert, List.any_nil, Bool.false_eq_true, ite_false, ite_true,
    show ¬itemX.item_id = "" by decide]
  decide

/-- The reordered input `[Y, X]` instead keeps `Y` and skips `X`. -/
theorem select_YX :
    _select_first_chronological_unique_stories parseDigits [itemY, itemX]
      = ([itemY], [("X", "Y")]) := by
  have hsort : _sort_items_oldest_first parseDigits [itemY, itemX]
      = [itemY, itemX] := List.mergeSort_of_sorted (by decide)
  have hdXY : decide ((84 : ℚ)/100 ≤ _story_similarity itemX itemY) = true := by
    rw [story_similarity_identical_one itemX itemY rfl (by decide)]
    exact decide_eq_true (by norm_num)
  simp only [_select_first_chronological_unique_stories]
  rw [hsort]
  simp only [List.foldl_cons, List.foldl_nil, List.find?_nil, List.find?_cons,
    hdXY, Option.map_none', Option.map_some', List.nil_append,
    dictInsert, List.any_nil, Bool.false_eq_true, ite_false, ite_true,
    show ¬itemY.item_id = "" by decide]
  decide

/-- Counterexample to C1 as stated: the dedup selector is NOT invariant
under every permutation of its input.  Two near-duplicate items with
identical parsed publish times (both unparseable, so both epoch zero)
swap roles when the input order swaps — the stable sort keeps the input
order of tied keys, so `[X, Y]` keeps `X` and maps `Y` to `X`, while
the permutation `[Y, X]` keeps `Y` and maps `X` to `Y`. -/
theorem dedup_not_permutation_invariant :
    [itemX, itemY].Perm [itemY, itemX] ∧
    _select_first_chronological_unique_stories parseDigits [itemX, itemY]
      ≠ _select_first_chronological_unique_stories parseDigits
        [itemY, itemX] := by
  refine ⟨by decide, ?_⟩
  rw [select_XY, select_YX]
  decide

/-- C1 (amended): when all items have pairwise-distinct parsed publish
times (no ties, the case the claim's own scenario describes), the dedup
selector is invariant under input reordering: any permutation of the
input yields the same kept list and the same skipped-to-keeper map; in
particular for items A (older, story X), B (newer, near-duplicate of
X), C (distinct story), both `[B, A, C]` and `[A, B, C]` yield
`kept = [A, C]` and `skippedToKeeper = {B ↦ A}`. -/
theorem dedup_perm_invariant_spec :
    (∀ (parsedate : String → Option Int) (threshold : ℚ)
      (items₁ items₂ : List RssItem), items₁.Perm items₂ →
      (items₁.map (itemKey parsedate)).Nodup →
      _select_first_chronological_unique_stories parsedate items₁ threshold
        = _select_first_chronological_unique_stories parsedate items₂
          threshold) ∧
    _select_first_chronological_unique_stories parseDigits
      [itemB, itemA, itemC] = ([itemA, itemC], [("B", "A")]) ∧
    _select_first_chronological_unique_stories parseDigits
      [itemA, itemB, itemC] = ([itemA, itemC], [("B", "A")]) :=
  ⟨select_stories_perm_invariant, select_BAC, select_ABC⟩

/-- Witness for C1 (amended): the invariance applied to the concrete
scrambled and ordered inputs, whose keys 2, 1, 3 are pairwise
distinct. -/
theorem dedup_perm_invariant_spec_witness :
    _select_first_chronological_unique_stories parseDigits
      [itemB, itemA, itemC] (84/100)
      = _select_first_chronological_unique_stories parseDigits
        [itemA, itemB, itemC] (84/100) :=
  dedup_perm_invariant_spec.1 parseDigits (84/100)
    [itemB, itemA, itemC] [itemA, itemB, itemC] (by decide) (by decide)
